import Mathlib

/-!
Shallow embedding of the Wyvern-style NFT order utilities
(`src/unnamed/part_000` of CryptonightCanada/blockchain-wallet-v4-frontend):
order hashing (`getOrderHashHex`, `getOrderHash`), timing validation
(`_getTimeParameters`), calldata/replacement-pattern encoding
(`encodeReplacementPattern`, `encodeSell`, `encodeBuy`), fee computation
(`computeFees`), order builders (`_makeSellOrder`, `_makeMatchingOrder`),
the `_atomicMatch` transaction-value fragment, and the `_approveAll`
ownership-check handling.

Modelling conventions:
* JS strings are Lean `String`; byte buffers are `List Nat` with entries < 256.
* BigNumber / JS number fields are `Nat` (timestamps, basis points from the
  server) or `ℚ` (human-readable amounts, where the source uses fractional
  defaults such as 2.5).
* `ethers.utils.solidityKeccak256(types, values)` is `keccak256` applied to the
  packed byte concatenation `solidityPack(types, values)`.  The keccak-256
  permutation itself lives in the external `ethers` library and is not part of
  this repository; the embedding therefore exposes the packed pre-image bytes,
  and hash equality / hash distinctness claims are settled on that pre-image
  (distinctness holding up to keccak collisions, exactly the assumption the
  specification itself makes).
* Functions that `throw` are `Except String`-valued.
-/

namespace NftMarket

/-- Numeric value of a hexadecimal digit given as a character code,
case-insensitive, mirroring JS/ethers hex parsing. -/
def hexValN (n : Nat) : Option Nat :=
  if 48 ≤ n ∧ n ≤ 57 then some (n - 48)
  else if 97 ≤ n ∧ n ≤ 102 then some (n - 87)
  else if 65 ≤ n ∧ n ≤ 70 then some (n - 55)
  else none

/-- Numeric value of a hexadecimal digit character, case-insensitive. -/
def hexVal (c : Char) : Option Nat := hexValN c.toNat

/-- ASCII lower-casing of one character, the model of JS
`String.prototype.toLowerCase` on the address alphabet. -/
def lowerChar (c : Char) : Char :=
  if 65 ≤ c.toNat ∧ c.toNat ≤ 90 then Char.ofNat (c.toNat + 32) else c

/-- Model of JS `s.toLowerCase()` (the strings involved are ASCII). -/
def lowerStr (s : String) : String := ⟨s.data.map lowerChar⟩

/-- Strict hex parsing of a digit list into bytes: fails on an odd length or a
non-hex character (ethers rejects such input). -/
def hexPairs : List Char → Option (List Nat)
  | [] => some []
  | c1 :: c2 :: rest =>
    match hexVal c1, hexVal c2, hexPairs rest with
    | some h, some l, some bs => some ((16 * h + l) :: bs)
    | _, _, _ => none
  | [_] => none

/-- Node `Buffer.from(s, 'hex')` semantics: parse hex pairs from the left and
silently stop at the first invalid pair or dangling nibble. -/
def bufFromHex : List Char → List Nat
  | c1 :: c2 :: rest =>
    match hexVal c1, hexVal c2 with
    | some h, some l => (16 * h + l) :: bufFromHex rest
    | _, _ => []
  | _ => []

/-- Drop one leading literal `0x`, as in the ethers address grammar
`(0x)? [0-9a-fA-F]{40}`. -/
def strip0x : List Char → List Char
  | '0' :: 'x' :: rest => rest
  | l => l

/-- Model of the ethers address-to-bytes conversion used by
`solidityKeccak256` on `address`-typed values: an optional `0x` followed by
exactly 40 hex digits, parsed case-insensitively into 20 bytes; anything else
makes ethers throw (`none` here).  The EIP-55 checksum that ethers additionally
verifies on mixed-case input is keccak-derived (external library) and is not
modelled; it never changes the bytes of an accepted address. -/
def parseAddr (s : String) : Option (List Nat) :=
  if (strip0x s.data).length = 40 then hexPairs (strip0x s.data) else none

/-- Big-endian fixed-width byte encoding of a natural number, as produced by
the ethers packed encoder for `uintN` values. -/
def natToBytesBE : Nat → Nat → List Nat
  | 0, _ => []
  | len + 1, n => natToBytesBE len (n / 256) ++ [n % 256]

/-- One typed entry of the `orderParts` list fed to
`ethers.utils.solidityKeccak256` (source lines 268-292). -/
inductive Part where
  | addr (s : String)
  | u256 (n : Nat)
  | u8 (n : Nat)
  | bytesHex (s : String)
deriving DecidableEq, Repr

/-- Packed encoding of a single part, following `solidityPack`:
20 raw bytes for an address, 32-byte big-endian for `uint256` (ethers throws
on a value outside `[0, 2^256)`), a single byte for `uint8`, and for `bytes`
the raw buffer `Buffer.from(value.slice(2), 'hex')` that the source itself
constructs before packing. -/
def packPart : Part → Option (List Nat)
  | .addr s => parseAddr s
  | .u256 n => if n < 2 ^ 256 then some (natToBytesBE 32 n) else none
  | .u8 n => if n < 256 then some [n] else none
  | .bytesHex s => some (bufFromHex (s.data.drop 2))

/-- Packed concatenation of a part list; `none` as soon as one part is
rejected, mirroring the ethers throw. -/
def packParts : List Part → Option (List Nat)
  | [] => some []
  | p :: rest =>
    match packPart p, packParts rest with
    | some b, some bs => some (b ++ bs)
    | _, _ => none

/-- The order fields visible to the hashing and matching code.  Numeric
`BigNumber` fields are `Nat` here (they are non-negative integers wherever the
source hashes them).  `makerReferrerFee`, `quantity` and
`waitingForBestCounterOrder` are carried but are *not* part of the hash
pre-image, exactly as in the source's `orderParts` list. -/
structure OrderH where
  exchange : String
  maker : String
  taker : String
  makerRelayerFee : Nat
  takerRelayerFee : Nat
  makerProtocolFee : Nat
  takerProtocolFee : Nat
  makerReferrerFee : Nat
  feeRecipient : String
  feeMethod : Nat
  side : Nat
  saleKind : Nat
  target : String
  howToCall : Nat
  calldata : String
  replacementPattern : String
  staticTarget : String
  staticExtradata : String
  paymentToken : String
  basePrice : Nat
  extra : Nat
  listingTime : Nat
  expirationTime : Nat
  salt : Nat
  quantity : Nat
  waitingForBestCounterOrder : Bool
deriving DecidableEq, Repr

/-- The ordered field list of `getOrderHashHex` (source lines 268-292),
verbatim: exchange, maker, taker, the four fees, feeRecipient, feeMethod,
side, saleKind, target, howToCall, calldata, replacementPattern,
staticTarget, staticExtradata, paymentToken, basePrice, extra, listingTime,
expirationTime, salt. -/
def orderParts (o : OrderH) : List Part :=
  [ .addr o.exchange,
    .addr o.maker,
    .addr o.taker,
    .u256 o.makerRelayerFee,
    .u256 o.takerRelayerFee,
    .u256 o.makerProtocolFee,
    .u256 o.takerProtocolFee,
    .addr o.feeRecipient,
    .u8 o.feeMethod,
    .u8 o.side,
    .u8 o.saleKind,
    .addr o.target,
    .u8 o.howToCall,
    .bytesHex o.calldata,
    .bytesHex o.replacementPattern,
    .addr o.staticTarget,
    .bytesHex o.staticExtradata,
    .addr o.paymentToken,
    .u256 o.basePrice,
    .u256 o.extra,
    .u256 o.listingTime,
    .u256 o.expirationTime,
    .u256 o.salt ]

/-- Keccak-256 pre-image of the order hash: the packed concatenation that
`getOrderHashHex` hands to `ethers.utils.solidityKeccak256`.  The external
keccak application is not modelled (see the file header); equal pre-images
give equal hashes, distinct pre-images give distinct hashes up to keccak
collisions. -/
def getOrderHashHex (o : OrderH) : Option (List Nat) :=
  packParts (orderParts o)

/-- The field adjustments `getOrderHash` performs before hashing: maker,
taker and feeRecipient are lower-cased.  The source additionally stringifies
the enum fields (`feeMethod.toString()` etc.) which the ethers parser reads
back to the same number; on the `Nat` model this is the identity. -/
def lowerAddrFields (o : OrderH) : OrderH :=
  { o with
    feeRecipient := lowerStr o.feeRecipient,
    maker := lowerStr o.maker,
    taker := lowerStr o.taker }

/-- Model of `getOrderHash` (source lines 304-316). -/
def getOrderHash (o : OrderH) : Option (List Nat) :=
  getOrderHashHex (lowerAddrFields o)

/-! ### Timing validation: `_getTimeParameters` (source lines 503-546) -/

def MIN_EXPIRATION_SECONDS : Nat := 10

def ORDER_MATCHING_LATENCY_SECONDS : Nat := 60 * 60 * 24 * 7

structure TimeParams where
  expirationTime : Nat
  listingTime : Nat
deriving DecidableEq, Repr

/-- JS truthiness of the optional `listingTimestamp` argument: `undefined`
and `0` are falsy. -/
def listingGiven : Option Nat → Bool
  | none => false
  | some v => v != 0

/-- Model of `_getTimeParameters`.  `now` is `Math.round(Date.now() / 1000)`
(taken once; the source reads the clock twice a few microseconds apart).
Timestamps are natural numbers, so the source's whole-number re-check is
vacuous here. -/
def getTimeParameters (now : Nat) (expirationTimestamp : Nat)
    (listingTimestamp : Option Nat) (waitingForBestCounterOrder : Bool) :
    Except String TimeParams :=
  let minExpirationTimestamp := now + MIN_EXPIRATION_SECONDS
  let minListingTimestamp := now
  if expirationTimestamp ≠ 0 ∧ expirationTimestamp < minExpirationTimestamp then
    .error "Expiration time must be at least 10 seconds from now, or zero (non-expiring)."
  else if listingGiven listingTimestamp ∧ listingTimestamp.getD 0 < minListingTimestamp then
    .error "Listing time cannot be in the past."
  else if listingGiven listingTimestamp ∧ expirationTimestamp ≠ 0 ∧
      expirationTimestamp ≤ listingTimestamp.getD 0 then
    .error "Listing time must be before the expiration time."
  else if waitingForBestCounterOrder ∧ expirationTimestamp = 0 then
    .error "English auctions must have an expiration time."
  else if waitingForBestCounterOrder ∧ listingGiven listingTimestamp then
    .error "Cannot schedule an English auction for the future."
  else if waitingForBestCounterOrder then
    .ok { expirationTime := expirationTimestamp + ORDER_MATCHING_LATENCY_SECONDS,
          listingTime := expirationTimestamp }
  else
    .ok { expirationTime := expirationTimestamp,
          listingTime :=
            if listingGiven listingTimestamp then listingTimestamp.getD 0 else now - 100 }

/-! ### Support lemmas for the hashing claims -/

theorem packParts_append (a b : List Part) :
    packParts (a ++ b) =
      (packParts a).bind (fun x => (packParts b).map (fun y => x ++ y)) := by
  induction a with
  | nil => cases hb : packParts b <;> simp [packParts, hb]
  | cons p rest ih =>
    cases hp : packPart p <;> cases hr : packParts rest <;> cases hb : packParts b <;>
      simp [packParts, List.cons_append, hp, hr, hb, ih, List.append_assoc]

theorem natToBytesBE_length (len n : Nat) : (natToBytesBE len n).length = len := by
  induction len generalizing n with
  | zero => rfl
  | succ k ih => simp [natToBytesBE, ih]

theorem natToBytesBE_inj (len : Nat) :
    ∀ m n, m < 256 ^ len → n < 256 ^ len →
      natToBytesBE len m = natToBytesBE len n → m = n := by
  induction len with
  | zero =>
    intro m n hm hn _
    simp [pow_zero] at hm hn
    omega
  | succ k ih =>
    intro m n hm hn h
    simp only [natToBytesBE] at h
    have hlen : (natToBytesBE k (m / 256)).length = (natToBytesBE k (n / 256)).length := by
      simp [natToBytesBE_length]
    obtain ⟨h1, h2⟩ := List.append_inj h (by simp [natToBytesBE_length])
    have hdiv : m / 256 = n / 256 := by
      refine ih _ _ ?_ ?_ h1 <;>
        · have := pow_succ 256 k ▸ ‹_ < 256 ^ (k + 1)›
          omega
    have hmod : m % 256 = n % 256 := by simpa using h2
    omega

theorem packParts_one_change {p s : List Part} {x y : Part}
    (hxy : packPart x ≠ packPart y)
    (h1 : (packParts (p ++ x :: s)).isSome)
    (h2 : (packParts (p ++ y :: s)).isSome) :
    packParts (p ++ x :: s) ≠ packParts (p ++ y :: s) := by
  rw [packParts_append] at h1
  rw [packParts_append] at h2
  rw [packParts_append p (x :: s), packParts_append p (y :: s)]
  cases hp : packParts p with
  | none => rw [hp] at h1; simp at h1
  | some P =>
    rw [hp] at h1 h2
    cases hx : packPart x with
    | none => simp [packParts, hx] at h1
    | some X =>
      cases hy : packPart y with
      | none => simp [packParts, hy] at h2
      | some Y =>
        cases hs : packParts s with
        | none => simp [packParts, hx, hs] at h1
        | some S =>
          have ex : packParts (x :: s) = some (X ++ S) := by simp [packParts, hx, hs]
          have ey : packParts (y :: s) = some (Y ++ S) := by simp [packParts, hy, hs]
          rw [ex, ey]
          show some (P ++ (X ++ S)) ≠ some (P ++ (Y ++ S))
          intro hEq
          have hPS : P ++ (X ++ S) = P ++ (Y ++ S) := Option.some.inj hEq
          have hXS : X ++ S = Y ++ S := List.append_cancel_left hPS
          have hXY : X = Y := List.append_cancel_right hXS
          exact hxy (by rw [hx, hy, hXY])

theorem packParts_isSome_mem {l : List Part} (h : (packParts l).isSome) :
    ∀ p ∈ l, (packPart p).isSome := by
  induction l with
  | nil => intro p hp; simp at hp
  | cons q rest ih =>
    intro p hp
    simp only [packParts] at h
    cases hq : packPart q with
    | none => rw [hq] at h; simp at h
    | some b =>
      rw [hq] at h
      cases hr : packParts rest with
      | none => rw [hr] at h; simp at h
      | some bs =>
        rcases List.mem_cons.mp hp with rfl | hmem
        · simp [hq]
        · exact ih (by rw [hr]; rfl) p hmem

theorem toNat_ofNat_small {n : Nat} (h : n < 55296) : (Char.ofNat n).toNat = n := by
  have hv : n.isValidChar := Or.inl h
  simp [Char.ofNat, hv, Char.ofNatAux, Char.toNat, UInt32.toNat, BitVec.toNat_ofNatLt]

theorem hexVal_lowerChar (c : Char) : hexVal (lowerChar c) = hexVal c := by
  unfold hexVal lowerChar
  split_ifs with h
  · rw [toNat_ofNat_small (by omega)]
    unfold hexValN
    split_ifs <;>
      first
      | rfl
      | (simp only [Option.some.injEq]; omega)
      | (exfalso; omega)
  · rfl

theorem hexPairs_map_lower : ∀ l : List Char, hexPairs (l.map lowerChar) = hexPairs l
  | [] => rfl
  | [c] => rfl
  | c1 :: c2 :: rest => by
    simp only [List.map_cons, hexPairs, hexVal_lowerChar, hexPairs_map_lower rest]

theorem strip0x_eq (l : List Char) :
    strip0x l = l ∨ ∃ r, l = '0' :: 'x' :: r ∧ strip0x l = r := by
  unfold strip0x
  split
  · exact Or.inr ⟨_, rfl, rfl⟩
  · exact Or.inl rfl

theorem parseAddr_lower_eq {a b : String}
    (ha : (parseAddr a).isSome) (hb : (parseAddr b).isSome)
    (h : lowerStr a = lowerStr b) :
    parseAddr a = parseAddr b := by
  have hmap : a.data.map lowerChar = b.data.map lowerChar := by
    have := congrArg String.data h
    simpa [lowerStr] using this
  unfold parseAddr at ha hb ⊢
  by_cases h1 : (strip0x a.data).length = 40
  case neg => simp [h1] at ha
  by_cases h2 : (strip0x b.data).length = 40
  case neg => simp [h2] at hb
  simp only [h1, h2, if_true]
  have hlen : a.data.length = b.data.length := by
    have := congrArg List.length hmap
    simpa using this
  have hstrip : (strip0x a.data).map lowerChar = (strip0x b.data).map lowerChar := by
    rcases strip0x_eq a.data with hsa | ⟨ra, hra, hsa⟩ <;>
      rcases strip0x_eq b.data with hsb | ⟨rb, hrb, hsb⟩
    · rw [hsa, hsb]; exact hmap
    · exfalso
      rw [hsa] at h1
      rw [hsb] at h2
      rw [hrb] at hlen
      simp only [List.length_cons] at hlen
      omega
    · exfalso
      rw [hsa] at h1
      rw [hsb] at h2
      rw [hra] at hlen
      simp only [List.length_cons] at hlen
      omega
    · rw [hsa, hsb]
      rw [hra, hrb] at hmap
      simpa using hmap
  calc hexPairs (strip0x a.data)
      = hexPairs ((strip0x a.data).map lowerChar) := (hexPairs_map_lower _).symm
    _ = hexPairs ((strip0x b.data).map lowerChar) := by rw [hstrip]
    _ = hexPairs (strip0x b.data) := hexPairs_map_lower _

/-- All entries of `orderParts` except the final salt entry. -/
def orderPartsInit (o : OrderH) : List Part :=
  [ .addr o.exchange,
    .addr o.maker,
    .addr o.taker,
    .u256 o.makerRelayerFee,
    .u256 o.takerRelayerFee,
    .u256 o.makerProtocolFee,
    .u256 o.takerProtocolFee,
    .addr o.feeRecipient,
    .u8 o.feeMethod,
    .u8 o.side,
    .u8 o.saleKind,
    .addr o.target,
    .u8 o.howToCall,
    .bytesHex o.calldata,
    .bytesHex o.replacementPattern,
    .addr o.staticTarget,
    .bytesHex o.staticExtradata,
    .addr o.paymentToken,
    .u256 o.basePrice,
    .u256 o.extra,
    .u256 o.listingTime,
    .u256 o.expirationTime ]

theorem orderParts_decomp (o : OrderH) :
    orderParts o = orderPartsInit o ++ [Part.u256 o.salt] := rfl

theorem getOrderHash_salt_isSome {o : OrderH} {s s' : Nat} (hs' : s' < 2 ^ 256)
    (h : (getOrderHash { o with salt := s }).isSome) :
    (getOrderHash { o with salt := s' }).isSome := by
  unfold getOrderHash getOrderHashHex at h ⊢
  have e1 : orderParts (lowerAddrFields { o with salt := s })
      = orderPartsInit (lowerAddrFields o) ++ [Part.u256 s] := rfl
  have e2 : orderParts (lowerAddrFields { o with salt := s' })
      = orderPartsInit (lowerAddrFields o) ++ [Part.u256 s'] := rfl
  rw [e1, packParts_append] at h
  rw [e2, packParts_append]
  cases hp : packParts (orderPartsInit (lowerAddrFields o)) with
  | none => rw [hp] at h; simp at h
  | some P =>
    have hx : packPart (Part.u256 s') = some (natToBytesBE 32 s') := by
      show (if s' < 2 ^ 256 then some (natToBytesBE 32 s') else none)
        = some (natToBytesBE 32 s')
      rw [if_pos hs']
    simp [packParts, hx]

/-- Determinism half of C1: the hash pre-image depends only on the 22
hash-relevant fields listed in `orderParts`, so two orders that agree on them
(whatever their `makerReferrerFee`, `quantity` or English-auction flag) hash
identically. -/
theorem hashDetAux (o o' : OrderH) (h : orderParts o = orderParts o') :
    getOrderHash o = getOrderHash o' := by
  simp only [orderParts, List.cons.injEq, and_true, Part.addr.injEq, Part.u256.injEq,
    Part.u8.injEq, Part.bytesHex.injEq] at h
  obtain ⟨h1, h2, h3, h4, h5, h6, h7, h8, h9, h10, h11, h12, h13, h14, h15, h16, h17,
    h18, h19, h20, h21, h22⟩ := h
  simp [getOrderHash, getOrderHashHex, lowerAddrFields, orderParts, h1, h2, h3, h4, h5,
    h6, h7, h8, h9, h10, h11, h12, h13, h14, h15, h16, h17, h18, h19, h20, h21, h22]

/-- Sensitivity half of C1: if the canonical part lists of two orders agree
everywhere except at one position, where the packed encodings differ, then
the hash pre-images differ (and so do the keccak-256 hashes, up to
collisions). -/
theorem hashSensAux (o o' : OrderH) (p s : List Part) (x y : Part)
    (hdo : orderParts (lowerAddrFields o) = p ++ x :: s)
    (hdo' : orderParts (lowerAddrFields o') = p ++ y :: s)
    (hxy : packPart x ≠ packPart y)
    (hv : (getOrderHash o).isSome) (hv' : (getOrderHash o').isSome) :
    getOrderHash o ≠ getOrderHash o' := by
  unfold getOrderHash getOrderHashHex at hv hv' ⊢
  rw [hdo] at hv ⊢
  rw [hdo'] at hv' ⊢
  exact packParts_one_change hxy hv hv'

/-- Salt instance of the sensitivity property. -/
theorem hashSaltAux (o : OrderH) (s s' : Nat) (hs : s < 2 ^ 256) (hs' : s' < 2 ^ 256)
    (hne : s ≠ s') (hv : (getOrderHash { o with salt := s }).isSome) :
    getOrderHash { o with salt := s } ≠ getOrderHash { o with salt := s' } := by
  have hv' : (getOrderHash { o with salt := s' }).isSome := getOrderHash_salt_isSome hs' hv
  refine hashSensAux _ _ (orderPartsInit (lowerAddrFields o)) [] (.u256 s) (.u256 s')
    rfl rfl ?_ hv hv'
  have hx : packPart (Part.u256 s) = some (natToBytesBE 32 s) := by
    show (if s < 2 ^ 256 then some (natToBytesBE 32 s) else none) = some (natToBytesBE 32 s)
    rw [if_pos hs]
  have hy : packPart (Part.u256 s') = some (natToBytesBE 32 s') := by
    show (if s' < 2 ^ 256 then some (natToBytesBE 32 s') else none)
      = some (natToBytesBE 32 s')
    rw [if_pos hs']
  rw [hx, hy]
  intro hEq
  have hpow : (256 : Nat) ^ 32 = 2 ^ 256 := by norm_num
  exact hne (natToBytesBE_inj 32 s s' (by rw [hpow]; exact hs) (by rw [hpow]; exact hs')
    (Option.some.inj hEq))

/-- Pointwise-equal packed parts give equal packed concatenations. -/
theorem packParts_congr {l l' : List Part}
    (h : List.Forall₂ (fun p q => packPart p = packPart q) l l') :
    packParts l = packParts l' := by
  induction h with
  | nil => rfl
  | cons hpq _ ih => simp [packParts, hpq, ih]

/-- Theorems for claim C1: first conjunct is determinism over the
hash-relevant fields; second is single-position sensitivity of the packed
pre-image; third instantiates sensitivity at the salt field. -/
theorem getOrderHash_deterministic_and_sensitive :
    (∀ o o' : OrderH, orderParts o = orderParts o' → getOrderHash o = getOrderHash o')
    ∧ (∀ (o o' : OrderH) (p s : List Part) (x y : Part),
        orderParts (lowerAddrFields o) = p ++ x :: s →
        orderParts (lowerAddrFields o') = p ++ y :: s →
        packPart x ≠ packPart y →
        (getOrderHash o).isSome → (getOrderHash o').isSome →
        getOrderHash o ≠ getOrderHash o')
    ∧ (∀ (o : OrderH) (s s' : Nat), s < 2 ^ 256 → s' < 2 ^ 256 → s ≠ s' →
        (getOrderHash { o with salt := s }).isSome →
        getOrderHash { o with salt := s } ≠ getOrderHash { o with salt := s' }) :=
  ⟨hashDetAux, hashSensAux, hashSaltAux⟩

/-- A concrete, fully valid order used by the closed witnesses. -/
def oW : OrderH :=
  { exchange := "0x7be8076f4ea4a4ad08075c2508e481d6c946d12b"
    maker := "0x0000000000000000000000000000000000000001"
    taker := "0x0000000000000000000000000000000000000000"
    makerRelayerFee := 250
    takerRelayerFee := 0
    makerProtocolFee := 0
    takerProtocolFee := 0
    makerReferrerFee := 0
    feeRecipient := "0x5b3256965e7c3cf26e11fcaf296dfc8807c01073"
    feeMethod := 1
    side := 1
    saleKind := 0
    target := "0x0000000000000000000000000000000000000002"
    howToCall := 0
    calldata := "0x"
    replacementPattern := "0x"
    staticTarget := "0x0000000000000000000000000000000000000000"
    staticExtradata := "0x"
    paymentToken := "0x0000000000000000000000000000000000000000"
    basePrice := 100000000000000000
    extra := 0
    listingTime := 1600000000
    expirationTime := 0
    salt := 0
    quantity := 1
    waitingForBestCounterOrder := false }

/-- Witness for C1: at a concrete valid order, two salts (1 and 2) below
2^256 produce different hashes. -/
theorem getOrderHash_deterministic_and_sensitive_witness :
    getOrderHash { oW with salt := 1 } ≠ getOrderHash { oW with salt := 2 } :=
  getOrderHash_deterministic_and_sensitive.2.2 oW 1 2 (by norm_num) (by norm_num)
    (by norm_num) (by decide)

/-- Equality of the hash-relevant non-address fields of two orders. -/
def nonAddressFieldsEq (o o' : OrderH) : Prop :=
  o.makerRelayerFee = o'.makerRelayerFee ∧ o.takerRelayerFee = o'.takerRelayerFee
    ∧ o.makerProtocolFee = o'.makerProtocolFee ∧ o.takerProtocolFee = o'.takerProtocolFee
    ∧ o.feeMethod = o'.feeMethod ∧ o.side = o'.side ∧ o.saleKind = o'.saleKind
    ∧ o.howToCall = o'.howToCall ∧ o.calldata = o'.calldata
    ∧ o.replacementPattern = o'.replacementPattern
    ∧ o.staticExtradata = o'.staticExtradata ∧ o.basePrice = o'.basePrice
    ∧ o.extra = o'.extra ∧ o.listingTime = o'.listingTime
    ∧ o.expirationTime = o'.expirationTime ∧ o.salt = o'.salt

/-- Theorem for claim C2: two orders whose address fields (exchange, maker,
taker, feeRecipient, target, staticTarget, paymentToken) agree up to letter
case — and which both parse as valid addresses, a condition ethers checks —
and agree on every other hash-relevant field, hash identically: the explicit
lower-casing of maker/taker/feeRecipient plus the case-insensitive address
byte-parse of the remaining four make the hash independent of input casing. -/
theorem getOrderHash_address_case_insensitive (o o' : OrderH)
    (hrest : nonAddressFieldsEq o o')
    (hex2 : lowerStr o.exchange = lowerStr o'.exchange)
    (hmk : lowerStr o.maker = lowerStr o'.maker)
    (htk : lowerStr o.taker = lowerStr o'.taker)
    (hfr : lowerStr o.feeRecipient = lowerStr o'.feeRecipient)
    (htg : lowerStr o.target = lowerStr o'.target)
    (hst : lowerStr o.staticTarget = lowerStr o'.staticTarget)
    (hpt : lowerStr o.paymentToken = lowerStr o'.paymentToken)
    (hv : (getOrderHash o).isSome) (hv' : (getOrderHash o').isSome) :
    getOrderHash o = getOrderHash o' := by
  obtain ⟨e1, e2, e3, e4, e5, e6, e7, e8, e9, e10, e11, e12, e13, e14, e15, e16⟩ := hrest
  unfold getOrderHash getOrderHashHex at hv hv' ⊢
  have mEx : (parseAddr o.exchange).isSome :=
    packParts_isSome_mem hv (Part.addr o.exchange) (by simp [orderParts, lowerAddrFields])
  have mEx2 : (parseAddr o'.exchange).isSome :=
    packParts_isSome_mem hv' (Part.addr o'.exchange) (by simp [orderParts, lowerAddrFields])
  have mTg : (parseAddr o.target).isSome :=
    packParts_isSome_mem hv (Part.addr o.target) (by simp [orderParts, lowerAddrFields])
  have mTg2 : (parseAddr o'.target).isSome :=
    packParts_isSome_mem hv' (Part.addr o'.target) (by simp [orderParts, lowerAddrFields])
  have mSt : (parseAddr o.staticTarget).isSome :=
    packParts_isSome_mem hv (Part.addr o.staticTarget) (by simp [orderParts, lowerAddrFields])
  have mSt2 : (parseAddr o'.staticTarget).isSome :=
    packParts_isSome_mem hv' (Part.addr o'.staticTarget)
      (by simp [orderParts, lowerAddrFields])
  have mPt : (parseAddr o.paymentToken).isSome :=
    packParts_isSome_mem hv (Part.addr o.paymentToken) (by simp [orderParts, lowerAddrFields])
  have mPt2 : (parseAddr o'.paymentToken).isSome :=
    packParts_isSome_mem hv' (Part.addr o'.paymentToken)
      (by simp [orderParts, lowerAddrFields])
  have hEx : parseAddr o.exchange = parseAddr o'.exchange :=
    parseAddr_lower_eq mEx mEx2 hex2
  have hTg : parseAddr o.target = parseAddr o'.target :=
    parseAddr_lower_eq mTg mTg2 htg
  have hSt : parseAddr o.staticTarget = parseAddr o'.staticTarget :=
    parseAddr_lower_eq mSt mSt2 hst
  have hPt : parseAddr o.paymentToken = parseAddr o'.paymentToken :=
    parseAddr_lower_eq mPt mPt2 hpt
  apply packParts_congr
  simp only [orderParts, lowerAddrFields, List.forall₂_cons, List.Forall₂.nil,
    and_true]
  refine ⟨hEx, by rw [hmk], by rw [htk], by rw [e1], by rw [e2], by rw [e3], by rw [e4],
    by rw [hfr], by rw [e5], by rw [e6], by rw [e7], hTg, by rw [e8], by rw [e9],
    by rw [e10], hSt, by rw [e11], hPt, by rw [e12], by rw [e13], by rw [e14],
    by rw [e15], by rw [e16]⟩

/-- Witness for C2: the same order with the exchange and maker addresses
supplied in upper/mixed case hashes identically to the all-lowercase form. -/
theorem getOrderHash_address_case_insensitive_witness :
    getOrderHash { oW with
        exchange := "0x7BE8076F4EA4A4AD08075C2508E481D6C946D12b",
        maker := "0x0000000000000000000000000000000000000001" }
      = getOrderHash oW :=
  getOrderHash_address_case_insensitive _ _
    (by constructor <;> first | rfl | (constructor <;> first | rfl | (repeat' constructor)))
    (by decide) (by decide) (by decide) (by decide) (by decide) (by decide) (by decide)
    (by decide) (by decide)

/-! ### Theorems for claim C3 (`_getTimeParameters`) -/

/-- C3 counterexample: with the clock at 1000 the claim says expiration 0 is
accepted regardless of listing time, but an explicit non-zero past listing
time (500) is rejected by the listing-time check. -/
theorem getTimeParameters_expZero_pastListing_rejected :
    getTimeParameters 1000 0 (some 500) false =
      .error "Listing time cannot be in the past." := by
  rfl

/-- C3 (amended): `_getTimeParameters` succeeds exactly when: the expiration
is zero or at least now+10; any explicitly given non-zero listing time is not
in the past; any explicitly given non-zero listing time is below a non-zero
expiration; an English auction has a non-zero expiration; and an English
auction has no non-zero listing time.  In particular expiration 0 is exempt
only from the minimum-expiration rule, and a listing time given as 0 is
treated as absent (JS falsiness). -/
theorem getTimeParameters_ok_iff (now expi : Nat) (l : Option Nat) (w : Bool) :
    (∃ t, getTimeParameters now expi l w = Except.ok t) ↔
      ((expi = 0 ∨ now + MIN_EXPIRATION_SECONDS ≤ expi)
        ∧ (∀ v, l = some v → v ≠ 0 → now ≤ v)
        ∧ (∀ v, l = some v → v ≠ 0 → expi ≠ 0 → v < expi)
        ∧ (w = true → expi ≠ 0)
        ∧ (w = true → ∀ v, l = some v → v = 0)) := by
  cases l <;> cases w <;>
    simp only [getTimeParameters, listingGiven, MIN_EXPIRATION_SECONDS] <;>
    split_ifs <;>
    simp_all <;>
    omega

/-! ### Calldata encoder model: `encodeReplacementPattern` and friends
(source lines 189-236, 243-265, 358-419) -/

/-- Role tag on a transfer-function ABI input (`FunctionInputKind`). -/
inductive FunctionInputKind where
  | owner
  | asset
  | replaceable
deriving DecidableEq, Repr

/-- JS values appearing as ABI input values in the schema descriptors:
strings (hex or decimal), numbers (non-negative integers here) and booleans.
JS `NaN`/`undefined` inside a value is outside the model. -/
inductive JSVal where
  | str (s : String)
  | num (n : Nat)
  | boolean (b : Bool)
deriving DecidableEq, Repr

/-- JS truthiness of a value: empty string, 0 and false are falsy. -/
def JSVal.truthy : JSVal → Bool
  | .str s => !s.data.isEmpty
  | .num n => n != 0
  | .boolean b => b

/-- Model of `generateDefaultValue` (source lines 243-265); `none` models the
thrown `Default value not yet implemented` error. -/
def generateDefaultValue : String → Option JSVal
  | "address" | "bytes20" => some (.str "0x0000000000000000000000000000000000000000")
  | "bytes32" =>
    some (.str "0x0000000000000000000000000000000000000000000000000000000000000000")
  | "bool" => some (.boolean false)
  | "int" | "uint" | "uint8" | "uint16" | "uint32" | "uint64" | "uint256" => some (.num 0)
  | _ => none

/-- JS `name.startsWith(p)`, evaluated structurally on the character lists. -/
def startsWithS (name p : String) : Bool := p.data.isPrefixOf name.data

/-- JS `name.slice(n)` on ASCII strings. -/
def sliceFrom (name : String) (n : Nat) : String := ⟨name.data.drop n⟩

/-- Model of the local `elementaryName` (source lines 190-216). -/
def elementaryName (name : String) : String :=
  if startsWithS name "int[" then "int256" ++ sliceFrom name 3
  else if name = "int" then "int256"
  else if startsWithS name "uint[" then "uint256" ++ sliceFrom name 4
  else if name = "uint" then "uint256"
  else if startsWithS name "fixed[" then "fixed128x128" ++ sliceFrom name 5
  else if name = "fixed" then "fixed128x128"
  else if startsWithS name "ufixed[" then "ufixed128x128" ++ sliceFrom name 6
  else if name = "ufixed" then "ufixed128x128"
  else name

/-- JS `parseInt` on the strings at hand: a leading run of decimal digits,
`none` for `NaN`. -/
def parseIntJS (s : String) : Option Nat :=
  let digits := s.data.takeWhile (fun c => decide (48 ≤ c.toNat ∧ c.toNat ≤ 57))
  if digits.isEmpty then none
  else some (digits.foldl (fun acc c => 10 * acc + (c.toNat - 48)) 0)

/-- Content of the final bracket group when the type string ends with `]` and
contains a matching `[` — the group the regexes of `parseTypeArray` and the
`dynamicOffset` reduction capture: the characters between the last `[` and
the final `]`. -/
def lastBracketGroup (ty : String) : Option String :=
  match ty.data.getLast? with
  | some ']' =>
    let body := ty.data.dropLast
    if '[' ∈ body then
      some ⟨(body.reverse.takeWhile (fun c => c ≠ '[')).reverse⟩
    else none
  | _ => none

/-- Result of the regex in `parseTypeArray` (source lines 229-235). -/
inductive ParsedArray where
  | dynamicLen
  | fixedLen (n : Option Nat)
deriving DecidableEq, Repr

/-- Model of `parseTypeArray`: `none` when the regex does not match, an empty
bracket group is the dynamic marker, otherwise `parseInt` of the group
(`fixedLen none` being `NaN`). -/
def parseTypeArray (ty : String) : Option ParsedArray :=
  match lastBracketGroup ty with
  | none => none
  | some inner => if inner = "" then some .dynamicLen else some (.fixedLen (parseIntJS inner))

/-- Model of `isDynamic` (source lines 222-225). -/
def isDynamicType (ty : String) : Bool :=
  ty == "string" || ty == "bytes" ||
    (match parseTypeArray ty with
     | some .dynamicLen => true
     | _ => false)

/-- Per-input contribution to `dynamicOffset` (source lines 382-385): `N*32`
when the type ends in a non-empty bracket group (JS `NaN`, modelled `none`,
when the group is not numeric), else 32. -/
def headContrib (ty : String) : Option Nat :=
  match lastBracketGroup ty with
  | none => some 32
  | some inner =>
    if inner = "" then some 32 else (parseIntJS inner).map (fun n => n * 32)

/-- One annotated input of a transfer-function ABI: role kind, Solidity type
string, and the optional literal value carried by the schema descriptor. -/
structure AbiInput where
  kind : FunctionInputKind
  type : String
  value : Option JSVal
deriving DecidableEq, Repr

/-- The `dynamicOffset` accumulator of `encodeReplacementPattern`. -/
def dynamicOffsetOf (inputs : List AbiInput) : Option Nat :=
  inputs.foldl
    (fun acc i =>
      match acc, headContrib i.type with
      | some a, some b => some (a + b)
      | _, _ => none)
    (some 0)

/-- Single-word static elementary types used by this codebase's schemas (all
ABI-encode to one 32-byte word). -/
def singleWordTy (ty : String) : Bool :=
  ty == "address" || ty == "bytes20" || ty == "bytes32" || ty == "bool" ||
    ty == "int256" || ty == "uint8" || ty == "uint16" || ty == "uint32" ||
    ty == "uint64" || ty == "uint256"

/-- Byte length of `ethers.utils.defaultAbiCoder.encode([ty], [v])` for the
types this code reaches: one 32-byte word for a single-word static type, and
for dynamic `bytes` an offset word, a length word and the zero-padded data.
`none` models the combinations on which ethers itself throws (unknown types,
array-typed parameters given scalar values, invalid hex). -/
def abiEncOneLen (ty : String) (v : JSVal) : Option Nat :=
  if singleWordTy ty then some 32
  else if ty = "bytes" then
    match v with
    | .str s =>
      if startsWithS s "0x" ∧ (hexPairs (s.data.drop 2)).isSome then
        some (64 + 32 * (((s.data.drop 2).length / 2 + 31) / 32))
      else none
    | _ => none
  else none

/-- One entry of the mapped list inside `encodeReplacementPattern` (source
lines 386-391): resolved bitmask, elementary type name and resolved value. -/
structure MaskedInput where
  bitmask : Nat
  type : String
  value : JSVal
deriving DecidableEq, Repr

/-- The map step of `encodeReplacementPattern`: a missing value is replaced
by the type's default (throwing for unsupported types); the bitmask is 255
exactly on inputs whose kind equals `replaceKind`. -/
def toMasked (replaceKind : FunctionInputKind) (i : AbiInput) : Except String MaskedInput :=
  match i.value with
  | some v => .ok ⟨if i.kind = replaceKind then 255 else 0, elementaryName i.type, v⟩
  | none =>
    match generateDefaultValue i.type with
    | some v => .ok ⟨if i.kind = replaceKind then 255 else 0, elementaryName i.type, v⟩
    | none => .error ("Default value not yet implemented for type: " ++ i.type)

def toMaskedAll (replaceKind : FunctionInputKind) :
    List AbiInput → Except String (List MaskedInput)
  | [] => .ok []
  | i :: rest => do
    let m ← toMasked replaceKind i
    let ms ← toMaskedAll replaceKind rest
    .ok (m :: ms)

/-- The reduce step of `encodeReplacementPattern` (source lines 392-414),
returning the `output` and `data` buffer lists: a JS-falsy value contributes
nothing; a dynamic value pushes the 32-byte `dynamicOffset` word to `output`
and its filled encoding to `data` (throwing when marked replaceable); a
static value pushes its encoded width filled with the bitmask. -/
def erpFold (dynOff : Option Nat) :
    List MaskedInput → Except String (List (List Nat) × List (List Nat))
  | [] => .ok ([], [])
  | m :: rest => do
    let (output, data) ← erpFold dynOff rest
    if m.value.truthy = false then
      .ok (output, data)
    else
      match abiEncOneLen m.type m.value with
      | none => .error "ethers abi encode failed"
      | some w =>
        if isDynamicType m.type then
          if m.bitmask ≠ 0 then
            .error "Replacement is not supported for dynamic parameters."
          else
            match dynOff with
            | none => .error "ethers abi encode failed"
            | some dOff =>
              .ok (natToBytesBE 32 dOff :: output, List.replicate w m.bitmask :: data)
        else
          .ok (List.replicate w m.bitmask :: output, data)

/-- Model of `encodeReplacementPattern` (source lines 375-419), producing the
mask bytes (the source hex-encodes them behind an `0x` when
`encodeToBytes`): four zero bytes for the method id, the static `output`
region, then the dynamic `data` region. -/
def encodeReplacementPattern (inputs : List AbiInput)
    (replaceKind : FunctionInputKind) : Except String (List Nat) := do
  let masked ← toMaskedAll replaceKind inputs
  let res ← erpFold (dynamicOffsetOf inputs) masked
  .ok ([0, 0, 0, 0] ++ res.1.flatten ++ res.2.flatten)

/-- The value an input carries into encoding: its own value, or the type's
default (as in `encodeDefaultCall` for replaceable inputs). -/
def resolvedValue (i : AbiInput) : Option JSVal :=
  match i.value with
  | some v => some v
  | none => generateDefaultValue i.type

/-- Total head-plus-tail byte length of the standard ABI encoding of these
inputs: for a static parameter `abiEncOneLen` is the head width, for a
dynamic one it is its 32-byte head plus its tail, so the sum is the encoded
parameter block length. -/
def abiHeadTailLen (inputs : List AbiInput) : Option Nat :=
  inputs.foldl
    (fun acc i =>
      match acc, (resolvedValue i).bind (abiEncOneLen (elementaryName i.type)) with
      | some a, some b => some (a + b)
      | _, _ => none)
    (some 0)

/-- Byte length of the encoded calldata for these inputs: 4-byte method
selector plus the parameter block. -/
def encodedCalldataLen (inputs : List AbiInput) : Option Nat :=
  (abiHeadTailLen inputs).map (fun n => 4 + n)

/-! ### Theorems for claim C5 (`encodeReplacementPattern`) -/

theorem exceptBind_ok {α β : Type} (a : α) (f : α → Except String β) :
    (Except.ok a : Except String α) >>= f = f a := rfl

theorem exceptBind_error {α β : Type} (e : String) (f : α → Except String β) :
    (Except.error e : Except String α) >>= f = Except.error e := rfl

theorem singleWord_not_dynamic {ty : String} (h : singleWordTy ty = true) :
    isDynamicType ty = false := by
  simp [singleWordTy, or_assoc] at h
  rcases h with h|h|h|h|h|h|h|h|h|h <;> subst h <;> decide

theorem abiEncOneLen_singleWord {ty : String} (v : JSVal) (h : singleWordTy ty = true) :
    abiEncOneLen ty v = some 32 := by
  unfold abiEncOneLen
  rw [if_pos h]

theorem toMasked_resolved {rk : FunctionInputKind} {i : AbiInput} {v : JSVal}
    (h : resolvedValue i = some v) :
    toMasked rk i = .ok ⟨if i.kind = rk then 255 else 0, elementaryName i.type, v⟩ := by
  unfold resolvedValue at h
  unfold toMasked
  cases hi : i.value with
  | some w =>
    rw [hi] at h
    simp only [Option.some.injEq] at h
    subst h
    rfl
  | none =>
    rw [hi] at h
    have h2 : generateDefaultValue i.type = some v := h
    simp [h2]

/-- The per-input mask entry produced by the map step. -/
def expectedMasked (rk : FunctionInputKind) (i : AbiInput) : MaskedInput :=
  ⟨if i.kind = rk then 255 else 0, elementaryName i.type, (resolvedValue i).getD (.num 0)⟩

theorem toMaskedAll_resolved (rk : FunctionInputKind) :
    ∀ (inputs : List AbiInput),
      (∀ i ∈ inputs, (resolvedValue i).isSome) →
      toMaskedAll rk inputs = .ok (inputs.map (expectedMasked rk)) := by
  intro inputs
  induction inputs with
  | nil => intro _; rfl
  | cons i rest ih =>
    intro h
    have hi := h i (List.mem_cons_self i rest)
    cases hv : resolvedValue i with
    | none => rw [hv] at hi; simp at hi
    | some v =>
      have hm := @toMasked_resolved rk _ _ hv
      have hr := ih (fun j hj => h j (List.mem_cons_of_mem _ hj))
      simp [toMaskedAll, hm, hr, expectedMasked, hv, exceptBind_ok]

theorem erpFold_static (dynOff : Option Nat) :
    ∀ (ms : List MaskedInput),
      (∀ m ∈ ms, m.value.truthy = true ∧ singleWordTy m.type = true) →
      erpFold dynOff ms = .ok (ms.map (fun m => List.replicate 32 m.bitmask), []) := by
  intro ms
  induction ms with
  | nil => intro _; rfl
  | cons m rest ih =>
    intro h
    obtain ⟨ht, hs⟩ := h m (List.mem_cons_self m rest)
    have hr := ih (fun j hj => h j (List.mem_cons_of_mem _ hj))
    simp [erpFold, hr, ht, abiEncOneLen_singleWord m.value hs, singleWord_not_dynamic hs,
      exceptBind_ok]

theorem abiHeadTailLen_static_go :
    ∀ (inputs : List AbiInput),
      (∀ i ∈ inputs, ((resolvedValue i).map JSVal.truthy = some true)
          ∧ singleWordTy (elementaryName i.type) = true) →
      ∀ a : Nat,
        List.foldl
          (fun acc i =>
            match acc, (resolvedValue i).bind (abiEncOneLen (elementaryName i.type)) with
            | some x, some b => some (x + b)
            | _, _ => none)
          (some a) inputs = some (a + 32 * inputs.length) := by
  intro inputs
  induction inputs with
  | nil => intro _ a; simp
  | cons i rest ih =>
    intro h a
    obtain ⟨hv, hs⟩ := h i (List.mem_cons_self i rest)
    cases hres : resolvedValue i with
    | none => rw [hres] at hv; simp at hv
    | some v =>
      have hb : (resolvedValue i).bind (abiEncOneLen (elementaryName i.type)) = some 32 := by
        rw [hres]
        simp [abiEncOneLen_singleWord v hs]
      simp only [List.foldl_cons, hb]
      rw [ih (fun j hj => h j (List.mem_cons_of_mem _ hj)) (a + 32)]
      simp only [List.length_cons, Option.some.injEq]
      ring

theorem abiHeadTailLen_static (inputs : List AbiInput)
    (h : ∀ i ∈ inputs, ((resolvedValue i).map JSVal.truthy = some true)
        ∧ singleWordTy (elementaryName i.type) = true) :
    abiHeadTailLen inputs = some (32 * inputs.length) := by
  have hgo := abiHeadTailLen_static_go inputs h 0
  simpa [abiHeadTailLen] using hgo

theorem maskFlattenLen (rk : FunctionInputKind) (inputs : List AbiInput) :
    ((inputs.map (fun i =>
      List.replicate 32 (if i.kind = rk then (255 : Nat) else 0))).flatten).length
      = 32 * inputs.length := by
  induction inputs with
  | nil => rfl
  | cons i rest ih =>
    simp only [List.map_cons, List.flatten_cons, List.length_append, List.length_replicate,
      List.length_cons, ih]
    ring

theorem mapMaskedBitmask (rk : FunctionInputKind) (inputs : List AbiInput) :
    (inputs.map (expectedMasked rk)).map (fun m => List.replicate 32 m.bitmask)
      = inputs.map (fun (i : AbiInput) =>
          List.replicate 32 (if i.kind = rk then (255 : Nat) else 0)) := by
  induction inputs with
  | nil => rfl
  | cons i rest ih => simp [expectedMasked, ih]

/-- C5 (amended): on an input list all of whose parameters have static
single-word types and JS-truthy (default-filled) values,
`encodeReplacementPattern` returns exactly the claimed mask: four zero bytes
at the selector position followed, in parameter order, by each parameter's
full 32-byte encoded width filled with 0xFF when its kind is the replaced
kind and 0x00 otherwise — and the mask length equals the encoded calldata
length.  (The unrestricted claim is false: a parameter whose value is JS-falsy
is skipped entirely, and a dynamic parameter contributes a raw offset word —
see the counterexample.) -/
theorem encodeReplacementPattern_staticTruthy (inputs : List AbiInput)
    (rk : FunctionInputKind)
    (h : ∀ i ∈ inputs, ((resolvedValue i).map JSVal.truthy = some true)
        ∧ singleWordTy (elementaryName i.type) = true) :
    encodeReplacementPattern inputs rk
      = .ok ([0, 0, 0, 0] ++
          (inputs.map (fun (i : AbiInput) =>
            List.replicate 32 (if i.kind = rk then (255 : Nat) else 0))).flatten)
    ∧ encodedCalldataLen inputs
        = some (([0, 0, 0, 0] ++
            (inputs.map (fun (i : AbiInput) =>
              List.replicate 32 (if i.kind = rk then (255 : Nat) else 0))).flatten).length) := by
  have hres : ∀ i ∈ inputs, (resolvedValue i).isSome := by
    intro i hi
    have hv := (h i hi).1
    cases hr : resolvedValue i
    · rw [hr] at hv; simp at hv
    · rfl
  have hA := toMaskedAll_resolved rk inputs hres
  have hms : ∀ m ∈ inputs.map (expectedMasked rk),
      m.value.truthy = true ∧ singleWordTy m.type = true := by
    intro m hm
    obtain ⟨i, hi, rfl⟩ := List.mem_map.mp hm
    obtain ⟨hv, hs⟩ := h i hi
    constructor
    · cases hr : resolvedValue i
      · rw [hr] at hv; simp at hv
      · rw [hr] at hv
        simp at hv
        simpa [expectedMasked, hr] using hv
    · simpa [expectedMasked] using hs
  have hB := erpFold_static (dynamicOffsetOf inputs) _ hms
  rw [mapMaskedBitmask] at hB
  constructor
  · simp [encodeReplacementPattern, hA, hB, exceptBind_ok]
  · unfold encodedCalldataLen
    rw [abiHeadTailLen_static inputs h]
    have hlen : (([0, 0, 0, 0] : List Nat) ++
        (inputs.map (fun (i : AbiInput) =>
          List.replicate 32 (if i.kind = rk then (255 : Nat) else 0))).flatten).length
        = 4 + 32 * inputs.length := by
      rw [List.length_append, maskFlattenLen]
      rfl
    rw [hlen]
    rfl

/-- C5 counterexample: a single non-replaceable `uint256` parameter
default-fills to the JS-falsy value 0 and is skipped entirely, so the mask is
just the four selector bytes (length 4) while the encoded calldata is 36
bytes — the claimed length equality fails. -/
theorem encodeReplacementPattern_skips_falsy :
    encodeReplacementPattern [⟨.asset, "uint256", none⟩] .replaceable = .ok [0, 0, 0, 0]
      ∧ encodedCalldataLen [⟨(.asset : FunctionInputKind), "uint256", none⟩] = some 36
      ∧ (4 : Nat) ≠ 36 :=
  ⟨by rfl, by rfl, by omega⟩

def c5Inputs : List AbiInput :=
  [⟨.owner, "address", none⟩, ⟨.replaceable, "address", none⟩]

/-- Witness for C5 at a concrete static input list (the shape of an NFT
transfer's owner/destination address pair). -/
theorem encodeReplacementPattern_staticTruthy_witness :
    encodeReplacementPattern c5Inputs .replaceable
      = .ok ([0, 0, 0, 0] ++
          (c5Inputs.map (fun (i : AbiInput) =>
            List.replicate 32
              (if i.kind = FunctionInputKind.replaceable then (255 : Nat) else 0))).flatten)
    ∧ encodedCalldataLen c5Inputs
        = some (([0, 0, 0, 0] ++
            (c5Inputs.map (fun (i : AbiInput) =>
              List.replicate 32
                (if i.kind = FunctionInputKind.replaceable then (255 : Nat)
                  else 0))).flatten).length) :=
  encodeReplacementPattern_staticTruthy c5Inputs .replaceable (by decide)

/-! ### Fee computation: `computeFees` (source lines 826-894) -/

def DEFAULT_BUYER_FEE_BASIS_POINTS : Nat := 0

def DEFAULT_SELLER_FEE_BASIS_POINTS : Nat := 250

def OPENSEA_SELLER_BOUNTY_BASIS_POINTS : Nat := 100

def DEFAULT_MAX_BOUNTY : Nat := DEFAULT_SELLER_FEE_BASIS_POINTS

/-- Order sides.  The missing types module defines the enum; Wyvern numbers
the sides Buy = 0, Sell = 1, which is also forced by the side flip
`(side + 1) % 2` in `_makeMatchingOrder`. -/
def NftOrderSide.Buy : Nat := 0

def NftOrderSide.Sell : Nat := 1

/-- Fee fields of `asset.asset_contract`: basis-point numbers from the
server (the source's unary `+` coercions parse their string forms). -/
structure AssetContractFees where
  opensea_buyer_fee_basis_points : Nat
  opensea_seller_fee_basis_points : Nat
  dev_buyer_fee_basis_points : Nat
  dev_seller_fee_basis_points : Nat
deriving DecidableEq, Repr

/-- Fee fields of the optional `asset.collection`. -/
structure CollectionFees where
  dev_buyer_fee_basis_points : Nat
  dev_seller_fee_basis_points : Nat
deriving DecidableEq, Repr

/-- The slice of an `NftAsset` that `computeFees` reads. -/
structure AssetFees where
  asset_contract : AssetContractFees
  collection : Option CollectionFees
  transfer_fee : Option Nat
  transfer_fee_payment_token : Option String
deriving DecidableEq, Repr

/-- Result record of `computeFees`. -/
structure ComputedFees where
  devBuyerFeeBasisPoints : Nat
  devSellerFeeBasisPoints : Nat
  openseaBuyerFeeBasisPoints : Nat
  openseaSellerFeeBasisPoints : Nat
  sellerBountyBasisPoints : ℚ
  totalBuyerFeeBasisPoints : Nat
  totalSellerFeeBasisPoints : Nat
  transferFee : Nat
  transferFeeTokenAddress : Option String
deriving DecidableEq, Repr

/-- Model of `computeFees`.  `extraBountyBasisPoints` is a JS number (one
builder default is 2.5), hence ℚ.  The dev-fee sums follow the source's
`+a.x + parseInt(collection?.x) || 0` exactly: with no collection the sum is
NaN and the `|| 0` collapses it to 0.  The bounty check throws only when the
seller bounty is positive *and* bounty + marketplace bounty exceeds the cap
(the asset's OpenSea seller fee). -/
def computeFees (asset : Option AssetFees) (extraBountyBasisPoints : ℚ)
    (side : Nat) : Except String ComputedFees :=
  let openseaBuyerFeeBasisPoints :=
    match asset with
    | some a => a.asset_contract.opensea_buyer_fee_basis_points
    | none => DEFAULT_BUYER_FEE_BASIS_POINTS
  let openseaSellerFeeBasisPoints :=
    match asset with
    | some a => a.asset_contract.opensea_seller_fee_basis_points
    | none => DEFAULT_SELLER_FEE_BASIS_POINTS
  let devBuyerFeeBasisPoints :=
    match asset with
    | some a =>
      match a.collection with
      | some c => a.asset_contract.dev_buyer_fee_basis_points + c.dev_buyer_fee_basis_points
      | none => 0
    | none => 0
  let devSellerFeeBasisPoints :=
    match asset with
    | some a =>
      match a.collection with
      | some c => a.asset_contract.dev_seller_fee_basis_points + c.dev_seller_fee_basis_points
      | none => 0
    | none => 0
  let maxTotalBountyBPS :=
    match asset with
    | some a => a.asset_contract.opensea_seller_fee_basis_points
    | none => DEFAULT_MAX_BOUNTY
  let transferFee : Nat :=
    match asset with
    | some a => if side = NftOrderSide.Sell then a.transfer_fee.getD 0 else 0
    | none => 0
  let transferFeeTokenAddress : Option String :=
    match asset with
    | some a => if side = NftOrderSide.Sell then a.transfer_fee_payment_token else none
    | none => none
  let sellerBountyBasisPoints : ℚ :=
    if side = NftOrderSide.Sell then extraBountyBasisPoints else 0
  let bountyTooLarge :=
    (maxTotalBountyBPS : ℚ)
      < sellerBountyBasisPoints + (OPENSEA_SELLER_BOUNTY_BASIS_POINTS : ℚ)
  if 0 < sellerBountyBasisPoints ∧ bountyTooLarge then
    .error "Total bounty exceeds the maximum for this asset type."
  else
    .ok
      { devBuyerFeeBasisPoints := devBuyerFeeBasisPoints,
        devSellerFeeBasisPoints := devSellerFeeBasisPoints,
        openseaBuyerFeeBasisPoints := openseaBuyerFeeBasisPoints,
        openseaSellerFeeBasisPoints := openseaSellerFeeBasisPoints,
        sellerBountyBasisPoints := sellerBountyBasisPoints,
        totalBuyerFeeBasisPoints := openseaBuyerFeeBasisPoints + devBuyerFeeBasisPoints,
        totalSellerFeeBasisPoints := openseaSellerFeeBasisPoints + devSellerFeeBasisPoints,
        transferFee := transferFee,
        transferFeeTokenAddress := transferFeeTokenAddress }

/-- C6 (amended): on a sell-side fee computation for a given asset,
`computeFees` fails with the bounty-cap error exactly when the extra bounty
is *positive* and extra bounty + marketplace bounty (100 bp) strictly
exceeds the asset's seller-fee cap; at the boundary (sum equal to the cap)
and whenever the extra bounty is zero it succeeds.  (The claim as frozen
omits the positivity condition — see the counterexample.) -/
theorem computeFees_bounty_cap (a : AssetFees) (eb : ℚ) :
    (∃ f, computeFees (some a) eb NftOrderSide.Sell = Except.ok f) ↔
      ¬(0 < eb ∧ (a.asset_contract.opensea_seller_fee_basis_points : ℚ)
          < eb + (OPENSEA_SELLER_BOUNTY_BASIS_POINTS : ℚ)) := by
  unfold computeFees
  by_cases hc : 0 < eb ∧ (a.asset_contract.opensea_seller_fee_basis_points : ℚ)
      < eb + (OPENSEA_SELLER_BOUNTY_BASIS_POINTS : ℚ)
  · simp [hc]
  · simp [hc]

/-- Concrete asset whose OpenSea seller fee (and hence bounty cap) is 0. -/
def czAsset : AssetFees :=
  { asset_contract :=
      { opensea_buyer_fee_basis_points := 0,
        opensea_seller_fee_basis_points := 0,
        dev_buyer_fee_basis_points := 0,
        dev_seller_fee_basis_points := 0 },
    collection := none,
    transfer_fee := none,
    transfer_fee_payment_token := none }

/-- C6 counterexample: with extra bounty 0 and cap 0, the claimed condition
`0 + 100 > 0` holds, yet `computeFees` succeeds — the code additionally
requires the extra bounty to be positive before throwing. -/
theorem computeFees_zero_bounty_ok :
    (∃ f, computeFees (some czAsset) 0 NftOrderSide.Sell = Except.ok f)
      ∧ ((czAsset.asset_contract.opensea_seller_fee_basis_points : ℚ)
          < 0 + (OPENSEA_SELLER_BOUNTY_BASIS_POINTS : ℚ)) :=
  ⟨⟨_, rfl⟩, by norm_num [czAsset, OPENSEA_SELLER_BOUNTY_BASIS_POINTS]⟩

/-! ### The `_atomicMatch` transaction-value fragment (source lines
2112-2131) -/

def NULL_ADDRESS : String := "0x0000000000000000000000000000000000000000"

def INVERSE_BASIS_POINT : Nat := 10000

/-- The fields of one side of the buy/sell pair that the `_atomicMatch`
value logic reads (BigNumber amounts as ℚ; the divisions involved are exact
decimal operations within bignumber.js precision). -/
structure MatchSlice where
  paymentToken : String
  basePrice : ℚ
  takerRelayerFee : ℚ
deriving DecidableEq, Repr

/-- The local `value` of `_atomicMatch` (source lines 2119-2123): the
fee-inclusive amount computed when the *buy* side's payment token is the
native asset — and then never read again. -/
def atomicMatchValueVar (buy sell : MatchSlice) : Option ℚ :=
  if buy.paymentToken = NULL_ADDRESS then
    some (sell.basePrice + sell.takerRelayerFee / (INVERSE_BASIS_POINT : ℚ) * sell.basePrice)
  else none

/-- The ETH value actually attached to the match transaction
(`txnData.value`, source line 2130): the bare `sell.basePrice` when the
*sell* side's payment token is the native asset, else 0. -/
def atomicMatchTxnValue (sell : MatchSlice) : ℚ :=
  if sell.paymentToken = NULL_ADDRESS then sell.basePrice else 0

/-- C7: at a native-payment match with basePrice 10000 and taker relayer fee
250 bp, the value attached to the transaction is the bare basePrice 10000
and not the claimed 10250 = basePrice + fee; the fee-inclusive amount is
computed into the unused local `value` (second conjunct), evidencing that the
attachment is the slip. -/
theorem atomicMatch_value_ignores_fee :
    atomicMatchTxnValue ⟨NULL_ADDRESS, 10000, 250⟩ = 10000
      ∧ atomicMatchValueVar ⟨NULL_ADDRESS, 10000, 250⟩ ⟨NULL_ADDRESS, 10000, 250⟩
          = some 10250
      ∧ atomicMatchTxnValue ⟨NULL_ADDRESS, 10000, 250⟩
          ≠ 10000 + 250 / (INVERSE_BASIS_POINT : ℚ) * 10000 := by
  refine ⟨?_, ?_, ?_⟩ <;>
    norm_num [atomicMatchTxnValue, atomicMatchValueVar, INVERSE_BASIS_POINT]

/-! ### Schemas and transfer encodings (`encodeSell`, `encodeBuy`;
source lines 436-501) -/

/-- Lowercase hex digit character of a value < 16. -/
def hexDigitChar (n : Nat) : Char :=
  if n < 10 then Char.ofNat (48 + n) else Char.ofNat (87 + n)

/-- Fixed-width lowercase big-endian hex rendering, as ethers emits for one
ABI word when given width 64. -/
def natToHexChars : Nat → Nat → List Char
  | 0, _ => []
  | len + 1, n => natToHexChars len (n / 16) ++ [hexDigitChar (n % 16)]

/-- Hex rendering of a byte list behind `0x`, Node `Buffer.toString('hex')`
with the prefix the source adds. -/
def bytesToHex (bs : List Nat) : String :=
  ⟨'0' :: 'x' :: (bs.map (fun b => natToHexChars 2 b)).flatten⟩

/-- Numeric value of a valid address string, used when ABI-encoding an
address argument into a calldata word. -/
def addrToNat (s : String) : Option Nat :=
  (parseAddr s).map (fun bs => bs.foldl (fun acc b => 256 * acc + b) 0)

/-- Byte length of an `0x`-prefixed hex string — the `len(...)` of the
spec's replacement-pattern invariant. -/
def hexByteLen (s : String) : Nat := (s.data.length - 2) / 2

/-- Wyvern schema names reachable through the builders' `schemaMap`
lookups. -/
inductive WyvernSchemaName where
  | ERC721
  | ERC1155
deriving DecidableEq, Repr

/-- An asset as the schema encoders see it. -/
structure AssetRef where
  address : String
  tokenId : Nat
  quantity : Nat
deriving DecidableEq, Repr

/-- A schema's transfer-function template: ABI inputs tagged
Owner/Asset/Replaceable, the call target, and the 4-byte method selector
(an ethers `getSighash` output — a keccak-derived external constant). -/
structure TransferTemplate where
  target : String
  selectorHex : String
  inputs : List AbiInput
deriving DecidableEq, Repr

/-- Modelled from the spec: the SchemaRegistry's transfer templates (the
repository's `schemas` module is not under `src/`).  Spec §2/§4.1: each
token standard maps to its transfer function; ERC-721 transfers via
`transferFrom(address _from, address _to, uint256 _tokenId)` with the owner
slot tagged Owner and the destination Replaceable, ERC-1155 via
`safeTransferFrom(address, address, uint256 id, uint256 amount, bytes data)`
with asset-literal id/amount and empty data; the target is the asset's token
contract. -/
def transferTemplate : WyvernSchemaName → AssetRef → TransferTemplate
  | .ERC721, a =>
    { target := a.address,
      selectorHex := "23b872dd",
      inputs := [⟨.owner, "address", none⟩, ⟨.replaceable, "address", none⟩,
                 ⟨.asset, "uint256", some (.num a.tokenId)⟩] }
  | .ERC1155, a =>
    { target := a.address,
      selectorHex := "f242432a",
      inputs := [⟨.owner, "address", none⟩, ⟨.replaceable, "address", none⟩,
                 ⟨.asset, "uint256", some (.num a.tokenId)⟩,
                 ⟨.asset, "uint256", some (.num a.quantity)⟩,
                 ⟨.asset, "bytes", some (.str "0x")⟩] }

/-- One encoded ABI word for the single-word values the templates carry;
`none` where ethers throws (bad address, out-of-range number). -/
def abiWordOfVal (ty : String) (v : JSVal) : Option (List Char) :=
  if ty = "address" then
    match v with
    | .str s => (addrToNat s).map (natToHexChars 64)
    | _ => none
  else if ty = "uint256" then
    match v with
    | .num n => if n < 2 ^ 256 then some (natToHexChars 64 n) else none
    | _ => none
  else none

/-- Head/tail assembly of the standard ABI encoding for a type/value list:
static single-word values go to the head; a `bytes` hex value contributes an
offset word to the head and a length word plus zero-padded data to the tail.
`totalHead` is the byte size of the whole head region, `tailSoFar` the bytes
of tails already emitted (both feed the offset words). -/
def encodeCallGo (totalHead : Nat) :
    List (String × JSVal) → Nat → Option (List Char × List Char)
  | [], _ => some ([], [])
  | (ty, v) :: rest, tailSoFar =>
    if ty = "bytes" then
      match v with
      | .str s =>
        if startsWithS s "0x" then
          match hexPairs (s.data.drop 2) with
          | none => none
          | some bs =>
            let padded := (s.data.drop 2).map lowerChar
              ++ List.replicate ((32 - bs.length % 32) % 32 * 2) '0'
            let tail := natToHexChars 64 bs.length ++ padded
            match encodeCallGo totalHead rest (tailSoFar + 32 + padded.length / 2) with
            | none => none
            | some (hs, ts) =>
              some (natToHexChars 64 (totalHead + tailSoFar) ++ hs, tail ++ ts)
        else none
      | _ => none
    else
      match abiWordOfVal ty v with
      | none => none
      | some w =>
        match encodeCallGo totalHead rest tailSoFar with
        | none => none
        | some (hs, ts) => some (w ++ hs, ts)

/-- Model of `encodeCall` (source lines 358-367) as a whole-calldata string:
4-byte selector then the ABI encoding of the parameters. -/
def encodeCallModel (selectorHex : String) (inputs : List AbiInput)
    (params : List JSVal) : Option String :=
  if inputs.length = params.length then
    match encodeCallGo (32 * inputs.length)
        ((inputs.map (fun i => elementaryName i.type)).zip params) 0 with
    | none => none
    | some (hs, ts) => some ⟨'0' :: 'x' :: selectorHex.data ++ hs ++ ts⟩
  else none

/-- Result triple of `encodeSell`/`encodeBuy`. -/
structure TransferEncoding where
  calldata : String
  replacementPattern : String
  target : String
deriving DecidableEq, Repr

/-- Model of `encodeSell` (source lines 436-457): the calldata is always the
ERC-1155 `safeTransferFrom(address.toLowerCase(), NULL_ADDRESS, tokenId, 1,
[])` encoding built through the hard-coded ERC-1155 ethers interface —
whatever the schema — while the replacement pattern and target come from the
schema's transfer template built on a quantity-1 asset. -/
def encodeSell (schema : WyvernSchemaName) (asset : AssetRef) (address : String) :
    Except String TransferEncoding :=
  let wyvAsset : AssetRef := { asset with quantity := 1 }
  let transfer := transferTemplate schema wyvAsset
  match encodeCallModel "f242432a" (transferTemplate WyvernSchemaName.ERC1155 wyvAsset).inputs
      [.str (lowerStr address), .str NULL_ADDRESS, .num asset.tokenId, .num 1, .str "0x"] with
  | none => .error "ethers abi encode failed"
  | some calldata =>
    match encodeReplacementPattern transfer.inputs .replaceable with
    | .error e => .error e
    | .ok mask =>
      .ok { calldata := calldata, replacementPattern := bytesToHex mask,
            target := transfer.target }

/-- The parameter `encodeBuy` assigns to one input: replaceable inputs take
the buyer address, owner inputs the type's default, asset inputs their
literal value. -/
def resolvedParamOfBuy (address : String) (i : AbiInput) : Option JSVal :=
  match i.kind with
  | .replaceable => some (.str address)
  | .owner => generateDefaultValue i.type
  | .asset => i.value

def resolvedParamsOfBuy (address : String) : List AbiInput → Option (List JSVal)
  | [] => some []
  | i :: rest =>
    match resolvedParamOfBuy address i, resolvedParamsOfBuy address rest with
    | some v, some vs => some (v :: vs)
    | _, _ => none

/-- Model of `encodeBuy` (source lines 459-501): exactly one replaceable
input is required; the calldata encodes the buyer address into the
replaceable slot and defaults into the owner slot; the replacement pattern
marks the *owner* inputs when any exist, else is empty. -/
def encodeBuy (schema : WyvernSchemaName) (asset : AssetRef) (address : String) :
    Except String TransferEncoding :=
  let transfer := transferTemplate schema asset
  let replaceables := transfer.inputs.filter
    (fun i => i.kind = FunctionInputKind.replaceable)
  let ownerInputs := transfer.inputs.filter (fun i => i.kind = FunctionInputKind.owner)
  if replaceables.length ≠ 1 then
    .error "Only 1 input can match transfer destination"
  else
    match resolvedParamsOfBuy address transfer.inputs with
    | none => .error "Default value not yet implemented for this type"
    | some params =>
      match encodeCallModel transfer.selectorHex transfer.inputs params with
      | none => .error "ethers abi encode failed"
      | some calldata =>
        if 0 < ownerInputs.length then
          match encodeReplacementPattern transfer.inputs .owner with
          | .error e => .error e
          | .ok mask =>
            .ok { calldata := calldata, replacementPattern := bytesToHex mask,
                  target := transfer.target }
        else
          .ok { calldata := calldata, replacementPattern := "0x",
                target := transfer.target }

/-! ### Price and sell-fee parameters (source lines 905-968, 1131-1160) -/

def NftSaleKind.FixedPrice : Nat := 0

def NftSaleKind.DutchAuction : Nat := 1

def HowToCall.Call : Nat := 0

def FeeMethod.SplitFee : Nat := 1

def OPENSEA_FEE_RECIPIENT : String := "0x5b3256965e7c3cf26e11fcaf296dfc8807c01073"

structure PriceParams where
  basePrice : ℚ
  extra : ℚ
  paymentToken : String
  reservePrice : Option ℚ
deriving DecidableEq, Repr

/-- Model of `_getPriceParameters`: `ethers.utils.parseEther(x.toString())`
is `x * 10^18` on the exact ℚ amounts (the NaN guard is vacuous on ℚ).  The
JS truthiness of `englishAuctionReservePrice` makes `0` the absent value. -/
def priceDiffOf (startAmount : ℚ) (endAmount : Option ℚ) : ℚ :=
  match endAmount with
  | some e => startAmount - e
  | none => 0

def getPriceParameters (orderSide : Nat) (tokenAddress : String)
    (expirationTime : Nat) (startAmount : ℚ) (endAmount : Option ℚ)
    (waitingForBestCounterOrder : Bool) (englishAuctionReservePrice : ℚ) :
    Except String PriceParams :=
  let priceDiff : ℚ := priceDiffOf startAmount endAmount
  let paymentToken := lowerStr tokenAddress
  let isEther := tokenAddress = NULL_ADDRESS
  if startAmount < 0 then
    .error "Starting price must be a number >= 0"
  else if isEther ∧ waitingForBestCounterOrder then
    .error "English auctions must use wrapped ETH or an ERC-20 token."
  else if isEther ∧ orderSide = NftOrderSide.Buy then
    .error "Offers must use wrapped ETH or an ERC-20 token."
  else if priceDiff < 0 then
    .error "End price must be less than or equal to the start price."
  else if 0 < priceDiff ∧ expirationTime = 0 then
    .error "Expiration time must be set if order will change in price."
  else if englishAuctionReservePrice ≠ 0 ∧ ¬waitingForBestCounterOrder then
    .error "Reserve prices may only be set on English auctions."
  else if englishAuctionReservePrice ≠ 0 ∧ englishAuctionReservePrice < startAmount then
    .error "Reserve price must be greater than or equal to the start amount."
  else
    .ok { basePrice := startAmount * 10 ^ 18,
          extra := priceDiff * 10 ^ 18,
          paymentToken := paymentToken,
          reservePrice :=
            if englishAuctionReservePrice ≠ 0 then
              some (englishAuctionReservePrice * 10 ^ 18)
            else none }

structure SellFeeParams where
  feeMethod : Nat
  feeRecipient : String
  makerProtocolFee : ℚ
  makerReferrerFee : ℚ
  makerRelayerFee : ℚ
  takerProtocolFee : ℚ
  takerRelayerFee : ℚ
deriving DecidableEq, Repr

/-- Model of `_getSellFeeParameters`: English auctions swap maker/taker
relayer fees and null the fee recipient. -/
def getSellFeeParameters (totalBuyerFeeBasisPoints totalSellerFeeBasisPoints : Nat)
    (waitForHighestBid : Bool) (sellerBountyBasisPoints : ℚ) : SellFeeParams :=
  { feeMethod := FeeMethod.SplitFee,
    feeRecipient := if waitForHighestBid then NULL_ADDRESS else OPENSEA_FEE_RECIPIENT,
    makerProtocolFee := 0,
    makerReferrerFee := sellerBountyBasisPoints,
    makerRelayerFee :=
      if waitForHighestBid then (totalBuyerFeeBasisPoints : ℚ)
      else (totalSellerFeeBasisPoints : ℚ),
    takerProtocolFee := 0,
    takerRelayerFee :=
      if waitForHighestBid then (totalSellerFeeBasisPoints : ℚ)
      else (totalBuyerFeeBasisPoints : ℚ) }

/-! ### The order builders (source lines 712-816, 1163-1281) -/

structure OrderMetadataAsset where
  address : String
  id : Nat
  quantity : Nat
deriving DecidableEq, Repr

structure OrderMetadata where
  asset : OrderMetadataAsset
  schema : WyvernSchemaName
deriving DecidableEq, Repr

/-- The unhashed-order record as the builders assemble it: hex-string byte
fields, ℚ BigNumber amounts, Nat timestamps, numeric enums.  (The source
stores the metadata id/quantity as decimal strings — lower-cased, with the
empty string collapsing to `NULL_ADDRESS`; their numeric values are carried
here, since nothing reads them back as text.) -/
structure UnhashedOrderB where
  basePrice : ℚ
  calldata : String
  englishAuctionReservePrice : Option ℚ
  exchange : String
  expirationTime : Nat
  extra : ℚ
  feeMethod : Nat
  feeRecipient : String
  howToCall : Nat
  listingTime : Nat
  maker : String
  makerProtocolFee : ℚ
  makerReferrerFee : ℚ
  makerRelayerFee : ℚ
  metadata : OrderMetadata
  paymentToken : String
  quantity : ℚ
  replacementPattern : String
  saleKind : Nat
  salt : Nat
  side : Nat
  staticExtradata : String
  staticTarget : String
  taker : String
  takerProtocolFee : ℚ
  takerRelayerFee : ℚ
  target : String
  waitingForBestCounterOrder : Bool
deriving DecidableEq, Repr

/-- The hard-coded replacement pattern `_makeSellOrder` puts on every sell
order (source line 1267): 36 zero bytes, 32 bytes of 0xFF over the
destination-address word, zeros to byte 196. -/
def sellHardcodedPattern : String :=
  "0x000000000000000000000000000000000000000000000000000000000000000000000000ffffffffffffffffffffffffffffffffffffffffffffffffffffffffffffffff0000000000000000000000000000000000000000000000000000000000000000000000000000000000000000000000000000000000000000000000000000000000000000000000000000000000000000000000000000000000000000000000000000000000000000000000000000000000000000000000000000000000000000"

/-- The hard-coded replacement pattern `_makeMatchingOrder` puts on every
counter-order (source lines 797-798): 4 zero bytes, 32 bytes of 0xFF over
the from-address word, zeros to byte 196. -/
def buyHardcodedPattern : String :=
  "0x00000000ffffffffffffffffffffffffffffffffffffffffffffffffffffffffffffffff00000000000000000000000000000000000000000000000000000000000000000000000000000000000000000000000000000000000000000000000000000000000000000000000000000000000000000000000000000000000000000000000000000000000000000000000000000000000000000000000000000000000000000000000000000000000000000000000000000000000000000000000000000000"

/-- The slice of an `NftAsset` that `_makeSellOrder` reads: token contract
address, schema name, decimal token id (as a number) and fee schedule. -/
structure NftAssetM where
  contractAddress : String
  schema_name : Option WyvernSchemaName
  token_id : Nat
  fees : AssetFees
deriving DecidableEq, Repr

/-- Model of `_makeSellOrder` (source lines 1163-1281).  `now` is the build
timestamp `Math.round(Date.now() / 1000)` and `salt` the value drawn by
`generatePseudoRandomSalt` (a pseudo-random 256-bit number, a model
parameter).  Note the source computes its time parameters as
`_getTimeParameters(0, now)` — ignoring the `expirationTime`/`listingTime`
arguments and not forwarding `waitForHighestBid` — and installs the
hard-coded sell replacement pattern instead of the one `encodeSell`
computed. -/
def makeSellOrder (now salt : Nat) (accountAddress : String) (asset : NftAssetM)
    (buyerAddress : String) (endAmount : Option ℚ) (englishAuctionReservePrice : ℚ)
    (expirationTime : Nat) (extraBountyBasisPoints : ℚ) (listingTime : Option Nat)
    (paymentTokenAddress : String) (quantity : Nat) (startAmount : ℚ)
    (waitForHighestBid : Bool) : Except String UnhashedOrderB := do
  let fees ← computeFees (some asset.fees) extraBountyBasisPoints NftOrderSide.Sell
  let schema := asset.schema_name.getD WyvernSchemaName.ERC721
  let enc ← encodeSell schema ⟨asset.contractAddress, asset.token_id, 1⟩ accountAddress
  let orderSaleKind :=
    match endAmount with
    | some e => if e ≠ startAmount then NftSaleKind.DutchAuction else NftSaleKind.FixedPrice
    | none => NftSaleKind.FixedPrice
  let price ← getPriceParameters NftOrderSide.Sell paymentTokenAddress expirationTime
      startAmount endAmount waitForHighestBid englishAuctionReservePrice
  let times ← getTimeParameters now 0 (some now) false
  let feeParams := getSellFeeParameters fees.totalBuyerFeeBasisPoints
      fees.totalSellerFeeBasisPoints waitForHighestBid fees.sellerBountyBasisPoints
  .ok { basePrice := price.basePrice,
        calldata := enc.calldata,
        englishAuctionReservePrice := price.reservePrice,
        exchange := lowerStr "0x7Be8076f4EA4A4AD08075C2508e481d6C946D12b",
        expirationTime := times.expirationTime,
        extra := price.extra,
        feeMethod := feeParams.feeMethod,
        feeRecipient := feeParams.feeRecipient,
        howToCall := HowToCall.Call,
        listingTime := times.listingTime,
        maker := accountAddress,
        makerProtocolFee := feeParams.makerProtocolFee,
        makerReferrerFee := feeParams.makerReferrerFee,
        makerRelayerFee := feeParams.makerRelayerFee,
        metadata := { asset := { address := lowerStr asset.contractAddress,
                                 id := asset.token_id,
                                 quantity := 1 },
                      schema := schema },
        paymentToken := price.paymentToken,
        quantity := (quantity : ℚ),
        replacementPattern := sellHardcodedPattern,
        saleKind := orderSaleKind,
        salt := salt,
        side := NftOrderSide.Sell,
        staticExtradata := "0x",
        staticTarget := NULL_ADDRESS,
        taker := buyerAddress,
        takerProtocolFee := feeParams.takerProtocolFee,
        takerRelayerFee := feeParams.takerRelayerFee,
        target := enc.target,
        waitingForBestCounterOrder := waitForHighestBid }

/-- Conversion of a ℚ BigNumber to the Nat a uint256 hash field needs;
`none` when the decimal rendering is not a non-negative integer (ethers
throws on it). -/
def qToNat (q : ℚ) : Option Nat :=
  if q.den = 1 ∧ 0 ≤ q.num then some q.num.toNat else none

/-- Hash pre-image of a built order (the `getOrderHash(matchingOrder)` call
at the end of `_makeMatchingOrder`). -/
def hashOfOrderB (o : UnhashedOrderB) : Option (List Nat) := do
  let bp ← qToNat o.basePrice
  let ex ← qToNat o.extra
  let mrf ← qToNat o.makerRelayerFee
  let trf ← qToNat o.takerRelayerFee
  let mpf ← qToNat o.makerProtocolFee
  let tpf ← qToNat o.takerProtocolFee
  getOrderHash
    { exchange := o.exchange, maker := o.maker, taker := o.taker,
      makerRelayerFee := mrf, takerRelayerFee := trf, makerProtocolFee := mpf,
      takerProtocolFee := tpf, makerReferrerFee := (qToNat o.makerReferrerFee).getD 0,
      feeRecipient := o.feeRecipient, feeMethod := o.feeMethod, side := o.side,
      saleKind := o.saleKind, target := o.target, howToCall := o.howToCall,
      calldata := o.calldata, replacementPattern := o.replacementPattern,
      staticTarget := o.staticTarget, staticExtradata := o.staticExtradata,
      paymentToken := o.paymentToken, basePrice := bp, extra := ex,
      listingTime := o.listingTime, expirationTime := o.expirationTime,
      salt := o.salt, quantity := (qToNat o.quantity).getD 0,
      waitingForBestCounterOrder := o.waitingForBestCounterOrder }

/-- An unsigned order: the built counter-order plus its hash. -/
structure UnsignedOrderB where
  order : UnhashedOrderB
  hash : Option (List Nat)
deriving DecidableEq, Repr

/-- The `computeOrderParams` closure of `_makeMatchingOrder` (source lines
727-768): re-encode the transfer for the opposite direction — `encodeSell`
when matching a buy order, `encodeBuy` when matching a sell order. -/
def computeOrderParams (order : UnhashedOrderB) (recipientAddress : String) :
    Except String TransferEncoding :=
  let assetRef : AssetRef :=
    ⟨order.metadata.asset.address, order.metadata.asset.id, order.metadata.asset.quantity⟩
  if order.side = NftOrderSide.Buy then
    encodeSell order.metadata.schema assetRef recipientAddress
  else
    encodeBuy order.metadata.schema assetRef recipientAddress

/-- Model of `_makeMatchingOrder` (source lines 712-816).  `now` and `salt`
model the clock and `generatePseudoRandomSalt`.  `ethers.utils.getAddress`
on the two input addresses is modelled as requiring a parseable address (the
checksummed re-rendering it returns is keccak-derived, external, and never
changes the address bytes).  The counter-calldata comes from `encodeSell`
when matching a buy order and `encodeBuy` when matching a sell order, but
the replacement pattern is the hard-coded buy pattern (the computed one is
commented out in the source), and the time parameters are
`_getTimeParameters(0)`. -/
def makeMatchingOrder (now salt : Nat) (accountAddress : String)
    (offer : Option ℚ) (order : UnhashedOrderB) (recipientAddress : String) :
    Except String UnsignedOrderB :=
  match parseAddr accountAddress, parseAddr recipientAddress with
  | some _, some _ => do
    let enc ← computeOrderParams order recipientAddress
    let times ← getTimeParameters now 0 none false
    let feeRecipient :=
      if order.feeRecipient = NULL_ADDRESS then OPENSEA_FEE_RECIPIENT else NULL_ADDRESS
    let matchingOrder : UnhashedOrderB :=
      { basePrice := offer.getD order.basePrice,
        calldata := enc.calldata,
        englishAuctionReservePrice := none,
        exchange := order.exchange,
        expirationTime := times.expirationTime,
        extra := 0,
        feeMethod := order.feeMethod,
        feeRecipient := feeRecipient,
        howToCall := order.howToCall,
        listingTime := times.listingTime,
        maker := accountAddress,
        makerProtocolFee := order.makerProtocolFee,
        makerReferrerFee := order.makerReferrerFee,
        makerRelayerFee := order.makerRelayerFee,
        metadata := order.metadata,
        paymentToken := order.paymentToken,
        quantity := order.quantity,
        replacementPattern := buyHardcodedPattern,
        saleKind := order.saleKind,
        salt := salt,
        side := (order.side + 1) % 2,
        staticExtradata := "0x",
        staticTarget := NULL_ADDRESS,
        taker := order.maker,
        takerProtocolFee := order.takerProtocolFee,
        takerRelayerFee := order.takerRelayerFee,
        target := enc.target,
        waitingForBestCounterOrder := false }
    .ok { order := matchingOrder, hash := hashOfOrderB matchingOrder }
  | _, _ => .error "invalid address"

instance : Inhabited WyvernSchemaName := ⟨.ERC721⟩

instance : Inhabited OrderMetadataAsset := ⟨⟨"", 0, 0⟩⟩

instance : Inhabited OrderMetadata := ⟨⟨default, default⟩⟩

instance : Inhabited UnhashedOrderB :=
  ⟨⟨0, "", none, "", 0, 0, 0, "", 0, 0, "", 0, 0, 0, default, "", 0, "", 0, 0, 0, "", "",
    "", 0, 0, "", false⟩⟩

instance : Inhabited UnsignedOrderB := ⟨⟨default, none⟩⟩

/-- The ok-payload of a built counter-order (the error fallback is a dummy;
the theorems' hypotheses always supply an ok result). -/
def extractUnsigned (e : Except String UnsignedOrderB) : UnsignedOrderB :=
  match e with
  | .ok v => v
  | .error _ => default

/-- The ok-payload of a built sell order. -/
def extractOrder (e : Except String UnhashedOrderB) : UnhashedOrderB :=
  match e with
  | .ok v => v
  | .error _ => default

theorem getTimeParameters_zero_none (now : Nat) :
    getTimeParameters now 0 none false = .ok ⟨0, now - 100⟩ := by
  unfold getTimeParameters listingGiven
  simp

/-! ### Theorems for claim C8 (`_makeMatchingOrder` counter-order shape) -/

/-- C8 (amended): the counter-order built by `_makeMatchingOrder` has the
inverted side `(side + 1) % 2` (hence a side different from the original's),
the freshly generated salt, extra 0 — and expirationTime 0 (never expires):
the one-week (`ORDER_MATCHING_LATENCY_SECONDS`) push-out applies only inside
the English-auction branch of `_getTimeParameters`, which the
`_getTimeParameters(0)` call here never takes. -/
theorem makeMatchingOrder_fields (now salt : Nat) (acct : String) (offer : Option ℚ)
    (order : UnhashedOrderB) (recip : String) (m : UnsignedOrderB)
    (h : makeMatchingOrder now salt acct offer order recip = Except.ok m) :
    m.order.side = (order.side + 1) % 2 ∧ m.order.side ≠ order.side
      ∧ m.order.salt = salt ∧ m.order.extra = 0 ∧ m.order.expirationTime = 0 := by
  unfold makeMatchingOrder at h
  cases hpa : parseAddr acct with
  | none => rw [hpa] at h; simp at h
  | some pa =>
    cases hpr : parseAddr recip with
    | none => rw [hpa, hpr] at h; simp at h
    | some pr =>
      rw [hpa, hpr] at h
      cases henc : computeOrderParams order recip with
      | error e => rw [henc] at h; simp [exceptBind_error] at h
      | ok enc =>
        rw [henc, exceptBind_ok, getTimeParameters_zero_none, exceptBind_ok] at h
        injection h with h
        subst h
        refine ⟨rfl, ?_, rfl, rfl, rfl⟩
        show (order.side + 1) % 2 ≠ order.side
        omega

/-- A concrete existing ERC-1155 sell order used by the C8 theorems. -/
def ordX : UnhashedOrderB :=
  { basePrice := 100, calldata := "0x", englishAuctionReservePrice := none,
    exchange := "0x7be8076f4ea4a4ad08075c2508e481d6c946d12b", expirationTime := 0,
    extra := 0, feeMethod := 1, feeRecipient := OPENSEA_FEE_RECIPIENT, howToCall := 0,
    listingTime := 0, maker := "0x0000000000000000000000000000000000000011",
    makerProtocolFee := 0, makerReferrerFee := 0, makerRelayerFee := 250,
    metadata := { asset := { address := "0x0000000000000000000000000000000000000022",
                             id := 5, quantity := 1 },
                  schema := .ERC1155 },
    paymentToken := NULL_ADDRESS, quantity := 1, replacementPattern := "0x", saleKind := 0,
    salt := 3, side := 1, staticExtradata := "0x", staticTarget := NULL_ADDRESS,
    taker := NULL_ADDRESS, takerProtocolFee := 0, takerRelayerFee := 250,
    target := "0x0000000000000000000000000000000000000022",
    waitingForBestCounterOrder := false }

def mmAcct : String := "0x0000000000000000000000000000000000000033"

/-- C8 counterexample: the counter-order to a concrete order, built at clock
1600000000, has expirationTime 0 — not the claimed one-week-in-the-future
1600000000 + 604800. -/
theorem makeMatchingOrder_expiration_not_one_week :
    makeMatchingOrder 1600000000 7 mmAcct none ordX mmAcct
        = Except.ok (extractUnsigned (makeMatchingOrder 1600000000 7 mmAcct none ordX mmAcct))
      ∧ (extractUnsigned (makeMatchingOrder 1600000000 7 mmAcct none ordX mmAcct)).order.expirationTime
          = 0
      ∧ (0 : Nat) ≠ 1600000000 + ORDER_MATCHING_LATENCY_SECONDS :=
  ⟨by rfl, by rfl, by decide⟩

/-- Witness for C8 at the concrete counter-order build. -/
theorem makeMatchingOrder_fields_witness :
    (extractUnsigned (makeMatchingOrder 1600000000 7 mmAcct none ordX mmAcct)).order.side
        = (ordX.side + 1) % 2
      ∧ (extractUnsigned (makeMatchingOrder 1600000000 7 mmAcct none ordX mmAcct)).order.side
          ≠ ordX.side
      ∧ (extractUnsigned (makeMatchingOrder 1600000000 7 mmAcct none ordX mmAcct)).order.salt = 7
      ∧ (extractUnsigned (makeMatchingOrder 1600000000 7 mmAcct none ordX mmAcct)).order.extra = 0
      ∧ (extractUnsigned (makeMatchingOrder 1600000000 7 mmAcct none ordX mmAcct)).order.expirationTime
          = 0 :=
  makeMatchingOrder_fields 1600000000 7 mmAcct none ordX mmAcct _ (by rfl)

/-! ### Ownership checks and the `_approveAll` fail-open catch (source
lines 1340-1421, 1600-1694) -/

/-- The ownership-check capabilities a schema exposes
(`schema.functions.countOf` / `schema.functions.ownerOf`). -/
structure SchemaFns where
  hasCountOf : Bool
  hasOwnerOf : Bool
deriving DecidableEq, Repr

/-- Chain responses consulted by one `getAssetBalance` attempt: the
ERC-1155 `balanceOf` result and the ERC-721 `ownerOf` result (`none` models
`undefined`/null responses). -/
structure ChainView where
  balanceOf : Option Nat
  ownerOf : Option String
deriving DecidableEq, Repr

/-- Model of `getAssetBalance` (source lines 1340-1384): a missing token id
throws `Token ID Required.`; a `countOf` schema reads `balanceOf`, an
`ownerOf` schema compares the lower-cased owner, a schema with neither
throws the missing-ownership-schema error; an undefined chain response
retries with a decremented counter and finally throws the RPC-exhaustion
error. -/
def getAssetBalance (fns : SchemaFns) (hasTokenId : Bool) (accountAddress : String)
    (view : ChainView) : Nat → Except String Nat
  | 0 =>
    if hasTokenId = false then .error "Token ID Required."
    else if fns.hasCountOf then
      match view.balanceOf with
      | some count => .ok count
      | none => .error "Unable to get current owner from smart contract"
    else if fns.hasOwnerOf then
      match view.ownerOf with
      | some owner => .ok (if lowerStr owner = lowerStr accountAddress then 1 else 0)
      | none => .error "Unable to get current owner from smart contract"
    else .error "Missing ownership schema for this asset type"
  | r + 1 =>
    if hasTokenId = false then .error "Token ID Required."
    else if fns.hasCountOf then
      match view.balanceOf with
      | some count => .ok count
      | none => getAssetBalance fns hasTokenId accountAddress view r
    else if fns.hasOwnerOf then
      match view.ownerOf with
      | some owner => .ok (if lowerStr owner = lowerStr accountAddress then 1 else 0)
      | none => getAssetBalance fns hasTokenId accountAddress view r
    else .error "Missing ownership schema for this asset type"

/-- Model of `_ownsAssetOnChain` (source lines 1386-1421): the account's
balance must reach `minAmount`, falling back to the proxy's balance when a
proxy address resolves. -/
def ownsAssetOnChain (fns : SchemaFns) (hasTokenId : Bool) (accountAddress : String)
    (minAmount : Nat) (accountView : ChainView)
    (proxy : Option (String × ChainView)) (retries : Nat) : Except String Bool := do
  let accountBalance ← getAssetBalance fns hasTokenId accountAddress accountView retries
  if minAmount ≤ accountBalance then .ok true
  else
    match proxy with
    | some pv => do
      let proxyBalance ← getAssetBalance fns hasTokenId pv.1 pv.2 retries
      .ok (decide (minAmount ≤ proxyBalance))
    | none => .ok false

/-- The per-asset ownership step of `_approveAll` (source lines 1622-1646):
the catch-all converts *any* error of `_ownsAssetOnChain` into
`isOwner = true`; only a definite `false` aborts the flow with the
insufficient-ownership error. -/
def approveAllOwnerCheck (ownsResult : Except String Bool) : Except String Bool :=
  let isOwner :=
    match ownsResult with
    | .error _ => true
    | .ok b => b
  if isOwner then .ok true
  else .error "You don't own enough to do that"

/-- C9 (amended): the `_approveAll` ownership step fails open on *every*
ownership-check error, whatever its kind — not only unsupported-schema
errors; a definite negative result is the only thing that aborts the flow. -/
theorem approveAllOwnerCheck_spec :
    (∀ e : String, approveAllOwnerCheck (.error e) = .ok true)
      ∧ approveAllOwnerCheck (.ok true) = .ok true
      ∧ approveAllOwnerCheck (.ok false) = .error "You don't own enough to do that" :=
  ⟨fun _ => rfl, rfl, rfl⟩

/-- C9 counterexample: `getAssetBalance` raises the non-schema errors
`Token ID Required.` (missing token id) and the RPC-exhaustion error
(undefined responses after the retries), and `_approveAll`'s catch treats
both as owned and proceeds — where the claim says only unsupported-schema
errors may fail open. -/
theorem approveAll_failsOpen_on_nonSchema_errors :
    getAssetBalance ⟨true, false⟩ false "0xaccount" ⟨none, none⟩ 1
        = .error "Token ID Required."
      ∧ getAssetBalance ⟨true, false⟩ true "0xaccount" ⟨none, none⟩ 1
          = .error "Unable to get current owner from smart contract"
      ∧ getAssetBalance ⟨false, false⟩ true "0xaccount" ⟨some 1, none⟩ 1
          = .error "Missing ownership schema for this asset type"
      ∧ approveAllOwnerCheck (.error "Token ID Required.") = .ok true
      ∧ approveAllOwnerCheck
          (.error "Unable to get current owner from smart contract") = .ok true :=
  ⟨rfl, rfl, rfl, rfl, rfl⟩

/-! ### Theorems for claim C10 (`_makeSellOrder` ignores its time
arguments) -/

theorem getTimeParameters_sellCall (now : Nat) :
    getTimeParameters now 0 (some now) false = .ok ⟨0, now⟩ := by
  unfold getTimeParameters listingGiven
  by_cases h : now = 0
  · subst h; rfl
  · simp [h]

theorem getPriceParameters_ok_val {side : Nat} {tok : String} {e : Nat} {a : ℚ}
    {endA : Option ℚ} {w : Bool} {r : ℚ} {p : PriceParams}
    (h : getPriceParameters side tok e a endA w r = .ok p) :
    p = { basePrice := a * 10 ^ 18,
          extra := priceDiffOf a endA * 10 ^ 18,
          paymentToken := lowerStr tok,
          reservePrice := if r ≠ 0 then some (r * 10 ^ 18) else none } := by
  unfold getPriceParameters at h
  dsimp only [] at h
  repeat' split at h
  all_goals simp_all

/-- C10: the `expirationTime` and `listingTime` arguments of
`_makeSellOrder` do not affect the returned order: whenever two calls that
differ only in those two arguments both succeed they return the same order,
and every returned order has `expirationTime = 0` and `listingTime` equal to
the build timestamp, because the time parameters are computed as
`_getTimeParameters(0, now)` with the `waitForHighestBid` flag not
forwarded.  (The arguments can still affect *whether* the build succeeds:
`expirationTime` feeds the price-validation checks.) -/
theorem makeSellOrder_ignores_time_args
    (now salt : Nat) (acct : String) (asset : NftAssetM) (buyer : String)
    (endA : Option ℚ) (resP : ℚ) (e1 e2 : Nat) (ebp : ℚ) (l1 l2 : Option Nat)
    (pay : String) (qty : Nat) (start : ℚ) (w : Bool) (o o' : UnhashedOrderB)
    (h1 : makeSellOrder now salt acct asset buyer endA resP e1 ebp l1 pay qty start w
        = Except.ok o)
    (h2 : makeSellOrder now salt acct asset buyer endA resP e2 ebp l2 pay qty start w
        = Except.ok o') :
    o = o' ∧ o.expirationTime = 0 ∧ o.listingTime = now := by
  unfold makeSellOrder at h1 h2
  dsimp only [] at h1 h2
  cases hf : computeFees (some asset.fees) ebp NftOrderSide.Sell with
  | error e => rw [hf] at h1; simp [exceptBind_error] at h1
  | ok fees =>
    rw [hf, exceptBind_ok] at h1 h2
    cases henc : encodeSell (asset.schema_name.getD WyvernSchemaName.ERC721)
        ⟨asset.contractAddress, asset.token_id, 1⟩ acct with
    | error e => rw [henc] at h1; simp [exceptBind_error] at h1
    | ok enc =>
      rw [henc, exceptBind_ok] at h1 h2
      cases hp1 : getPriceParameters NftOrderSide.Sell pay e1 start endA w resP with
      | error e => rw [hp1] at h1; simp [exceptBind_error] at h1
      | ok p1 =>
        cases hp2 : getPriceParameters NftOrderSide.Sell pay e2 start endA w resP with
        | error e => rw [hp2] at h2; simp [exceptBind_error] at h2
        | ok p2 =>
          rw [hp1, exceptBind_ok, getTimeParameters_sellCall, exceptBind_ok] at h1
          rw [hp2, exceptBind_ok, getTimeParameters_sellCall, exceptBind_ok] at h2
          have hv1 := getPriceParameters_ok_val hp1
          have hv2 := getPriceParameters_ok_val hp2
          subst hv1
          subst hv2
          injection h1 with h1
          injection h2 with h2
          subst h1
          subst h2
          exact ⟨rfl, rfl, rfl⟩

/-- A concrete asset for the C10/C4 witnesses. -/
def assetW : NftAssetM :=
  { contractAddress := "0x0000000000000000000000000000000000000022",
    schema_name := some .ERC1155,
    token_id := 5,
    fees := czAsset }

/-- Witness for C10: two concrete builds differing only in the time
arguments (expiration 9999999999 with listing 777, versus 0 with none)
return the same order, with expirationTime 0 and listingTime equal to the
build clock 1600000000. -/
theorem makeSellOrder_ignores_time_args_witness :
    extractOrder (makeSellOrder 1600000000 13 mmAcct assetW NULL_ADDRESS none 0
        9999999999 0 (some 777) NULL_ADDRESS 1 1 false)
      = extractOrder (makeSellOrder 1600000000 13 mmAcct assetW NULL_ADDRESS none 0
          0 0 none NULL_ADDRESS 1 1 false)
    ∧ (extractOrder (makeSellOrder 1600000000 13 mmAcct assetW NULL_ADDRESS none 0
        9999999999 0 (some 777) NULL_ADDRESS 1 1 false)).expirationTime = 0
    ∧ (extractOrder (makeSellOrder 1600000000 13 mmAcct assetW NULL_ADDRESS none 0
        9999999999 0 (some 777) NULL_ADDRESS 1 1 false)).listingTime = 1600000000 :=
  makeSellOrder_ignores_time_args 1600000000 13 mmAcct assetW NULL_ADDRESS none 0
    9999999999 0 0 (some 777) none NULL_ADDRESS 1 1 false _ _ (by rfl) (by rfl)

/-! ### Theorems for claim C4 (replacement-pattern length invariant) -/

theorem natToHexChars_length (len n : Nat) : (natToHexChars len n).length = len := by
  induction len generalizing n with
  | zero => rfl
  | succ k ih => simp [natToHexChars, ih]

theorem abiWordOfVal_length {ty : String} {v : JSVal} {w : List Char}
    (h : abiWordOfVal ty v = some w) : w.length = 64 := by
  unfold abiWordOfVal at h
  by_cases h1 : ty = "address"
  · rw [if_pos h1] at h
    cases v with
    | str s =>
      obtain ⟨n, -, rfl⟩ := Option.map_eq_some'.mp h
      exact natToHexChars_length 64 n
    | num n => simp at h
    | boolean b => simp at h
  · rw [if_neg h1] at h
    by_cases h2 : ty = "uint256"
    · rw [if_pos h2] at h
      cases v with
      | str s => simp at h
      | num n =>
        dsimp only [] at h
        simp only [Option.ite_none_right_eq_some, Option.some.injEq] at h
        obtain ⟨-, rfl⟩ := h
        exact natToHexChars_length 64 n
      | boolean b => simp at h
    · rw [if_neg h2] at h; simp at h

theorem encodeCallGo_head_length (totalHead : Nat) :
    ∀ (l : List (String × JSVal)) (t : Nat) (hs ts : List Char),
      encodeCallGo totalHead l t = some (hs, ts) → hs.length = 64 * l.length := by
  intro l
  induction l with
  | nil =>
    intro t hs ts h
    unfold encodeCallGo at h
    simp only [Option.some.injEq, Prod.mk.injEq] at h
    obtain ⟨h1, -⟩ := h
    subst h1
    simp
  | cons p l ih =>
    obtain ⟨ty, v⟩ := p
    intro t hs ts h
    unfold encodeCallGo at h
    by_cases hb : ty = "bytes"
    · rw [if_pos hb] at h
      cases v with
      | str s =>
        dsimp only [] at h
        by_cases hx : startsWithS s "0x" = true
        · rw [if_pos hx] at h
          cases hp : hexPairs (s.data.drop 2) with
          | none => rw [hp] at h; simp at h
          | some bs =>
            rw [hp] at h
            dsimp only [] at h
            cases hrec : encodeCallGo totalHead l
                (t + 32 + ((s.data.drop 2).map lowerChar
                  ++ List.replicate ((32 - bs.length % 32) % 32 * 2) '0').length / 2) with
            | none => rw [hrec] at h; simp at h
            | some pr =>
              rw [hrec] at h
              simp only [Option.some.injEq, Prod.mk.injEq] at h
              obtain ⟨h1, -⟩ := h
              subst h1
              have := ih _ pr.1 pr.2 (by rw [hrec])
              simp [List.length_append, natToHexChars_length, this, List.length_cons]
              ring
        · rw [if_neg hx] at h; simp at h
      | num n => simp at h
      | boolean b => simp at h
    · rw [if_neg hb] at h
      cases hw : abiWordOfVal ty v with
      | none => rw [hw] at h; simp at h
      | some w =>
        rw [hw] at h
        cases hrec : encodeCallGo totalHead l t with
        | none => rw [hrec] at h; simp at h
        | some pr =>
          rw [hrec] at h
          simp only [Option.some.injEq, Prod.mk.injEq] at h
          obtain ⟨h1, -⟩ := h
          subst h1
          have := ih _ pr.1 pr.2 (by rw [hrec])
          simp [List.length_append, abiWordOfVal_length hw, this, List.length_cons]
          ring

theorem encodeCallGo_no_bytes_tail (totalHead : Nat) :
    ∀ (l : List (String × JSVal)), (∀ p ∈ l, p.1 ≠ "bytes") →
      ∀ (t : Nat) (hs ts : List Char),
        encodeCallGo totalHead l t = some (hs, ts) → ts = [] := by
  intro l
  induction l with
  | nil =>
    intro _ t hs ts h
    unfold encodeCallGo at h
    simp only [Option.some.injEq, Prod.mk.injEq] at h
    exact h.2.symm
  | cons p l ih =>
    obtain ⟨ty, v⟩ := p
    intro hnb t hs ts h
    have hb : ty ≠ "bytes" := hnb (ty, v) (List.mem_cons_self _ _)
    unfold encodeCallGo at h
    rw [if_neg hb] at h
    cases hw : abiWordOfVal ty v with
    | none => rw [hw] at h; simp at h
    | some w =>
      rw [hw] at h
      cases hrec : encodeCallGo totalHead l t with
      | none => rw [hrec] at h; simp at h
      | some pr =>
        rw [hrec] at h
        simp only [Option.some.injEq, Prod.mk.injEq] at h
        obtain ⟨-, h2⟩ := h
        subst h2
        exact ih (fun q hq => hnb q (List.mem_cons_of_mem _ hq)) _ pr.1 pr.2 (by rw [hrec])

set_option maxRecDepth 4000 in
theorem encodeCallGo_trailing_empty_bytes (totalHead : Nat) :
    ∀ (l : List (String × JSVal)), (∀ p ∈ l, p.1 ≠ "bytes") →
      ∀ (t : Nat) (hs ts : List Char),
        encodeCallGo totalHead (l ++ [("bytes", JSVal.str "0x")]) t = some (hs, ts) →
        ts.length = 64 := by
  intro l
  induction l with
  | nil =>
    intro _ t hs ts h
    have hbase : encodeCallGo totalHead [("bytes", JSVal.str "0x")] t
        = some (natToHexChars 64 (totalHead + t) ++ [], natToHexChars 64 0 ++ []) := rfl
    rw [List.nil_append, hbase] at h
    simp only [Option.some.injEq, Prod.mk.injEq] at h
    obtain ⟨-, h2⟩ := h
    subst h2
    simp [natToHexChars_length]
  | cons p l ih =>
    obtain ⟨ty, v⟩ := p
    intro hnb t hs ts h
    have hb : ty ≠ "bytes" := hnb (ty, v) (List.mem_cons_self _ _)
    rw [List.cons_append] at h
    unfold encodeCallGo at h
    rw [if_neg hb] at h
    cases hw : abiWordOfVal ty v with
    | none => rw [hw] at h; simp at h
    | some w =>
      rw [hw] at h
      cases hrec : encodeCallGo totalHead (l ++ [("bytes", JSVal.str "0x")]) t with
      | none => rw [hrec] at h; simp at h
      | some pr =>
        rw [hrec] at h
        simp only [Option.some.injEq, Prod.mk.injEq] at h
        obtain ⟨-, h2⟩ := h
        subst h2
        exact ih (fun q hq => hnb q (List.mem_cons_of_mem _ hq)) _ pr.1 pr.2 (by rw [hrec])

theorem encodeCallModel_five_word_bytes_len {a1 a2 : String} {n1 n2 : Nat}
    {addr : String} {tid qty : Nat} {s : String}
    (h : encodeCallModel "f242432a"
        (transferTemplate WyvernSchemaName.ERC1155 ⟨addr, tid, qty⟩).inputs
        [.str a1, .str a2, .num n1, .num n2, .str "0x"] = some s) :
    s.data.length = 394 := by
  unfold encodeCallModel at h
  rw [if_pos (by rfl)] at h
  have hz : (((transferTemplate WyvernSchemaName.ERC1155
        ⟨addr, tid, qty⟩).inputs.map (fun i => elementaryName i.type)).zip
        ([.str a1, .str a2, .num n1, .num n2, .str "0x"] : List JSVal))
      = [("address", JSVal.str a1), ("address", JSVal.str a2),
         ("uint256", JSVal.num n1), ("uint256", JSVal.num n2),
         ("bytes", JSVal.str "0x")] := rfl
  rw [hz] at h
  have h32 : 32 * (transferTemplate WyvernSchemaName.ERC1155
      ⟨addr, tid, qty⟩).inputs.length = 160 := rfl
  rw [h32] at h
  cases hgo : encodeCallGo 160
      [("address", JSVal.str a1), ("address", JSVal.str a2),
       ("uint256", JSVal.num n1), ("uint256", JSVal.num n2),
       ("bytes", JSVal.str "0x")] 0 with
  | none => rw [hgo] at h; simp at h
  | some pr =>
    rw [hgo] at h
    simp only [Option.some.injEq] at h
    subst h
    have hhead := encodeCallGo_head_length 160 _ _ pr.1 pr.2 (by rw [hgo])
    have hgo2 : encodeCallGo 160
        ([("address", JSVal.str a1), ("address", JSVal.str a2),
          ("uint256", JSVal.num n1), ("uint256", JSVal.num n2)]
          ++ [("bytes", JSVal.str "0x")]) 0 = some (pr.1, pr.2) := hgo
    have htail := encodeCallGo_trailing_empty_bytes 160 _
      (by
        intro p hp
        simp at hp
        rcases hp with rfl | rfl | rfl | rfl <;>
          first
          | exact (by decide : ("address" : String) ≠ "bytes")
          | exact (by decide : ("uint256" : String) ≠ "bytes"))
      _ pr.1 pr.2 hgo2
    show ('0' :: 'x' :: "f242432a".data ++ pr.1 ++ pr.2).length = 394
    simp [List.length_append, hhead, htail]

theorem encodeCallModel_three_word_len {a1 a2 : String} {n1 : Nat}
    {addr : String} {tid qty : Nat} {s : String}
    (h : encodeCallModel "23b872dd"
        (transferTemplate WyvernSchemaName.ERC721 ⟨addr, tid, qty⟩).inputs
        [.str a1, .str a2, .num n1] = some s) :
    s.data.length = 202 := by
  unfold encodeCallModel at h
  rw [if_pos (by rfl)] at h
  have hz : (((transferTemplate WyvernSchemaName.ERC721
        ⟨addr, tid, qty⟩).inputs.map (fun i => elementaryName i.type)).zip
        ([.str a1, .str a2, .num n1] : List JSVal))
      = [("address", JSVal.str a1), ("address", JSVal.str a2),
         ("uint256", JSVal.num n1)] := rfl
  rw [hz] at h
  have h32 : 32 * (transferTemplate WyvernSchemaName.ERC721
      ⟨addr, tid, qty⟩).inputs.length = 96 := rfl
  rw [h32] at h
  cases hgo : encodeCallGo 96
      [("address", JSVal.str a1), ("address", JSVal.str a2),
       ("uint256", JSVal.num n1)] 0 with
  | none => rw [hgo] at h; simp at h
  | some pr =>
    rw [hgo] at h
    simp only [Option.some.injEq] at h
    subst h
    have hhead := encodeCallGo_head_length 96 _ _ pr.1 pr.2 (by rw [hgo])
    have hgo2 : encodeCallGo 96
        [("address", JSVal.str a1), ("address", JSVal.str a2),
         ("uint256", JSVal.num n1)] 0 = some (pr.1, pr.2) := hgo
    have htail := encodeCallGo_no_bytes_tail 96 _
      (by
        intro p hp
        simp at hp
        rcases hp with rfl | rfl | rfl <;>
          first
          | exact (by decide : ("address" : String) ≠ "bytes")
          | exact (by decide : ("uint256" : String) ≠ "bytes"))
      _ pr.1 pr.2 hgo2
    show ('0' :: 'x' :: "23b872dd".data ++ pr.1 ++ pr.2).length = 202
    simp [List.length_append, hhead, htail]

theorem encodeSell_calldata_len {schema : WyvernSchemaName} {asset : AssetRef}
    {address : String} {enc : TransferEncoding}
    (h : encodeSell schema asset address = .ok enc) :
    enc.calldata.data.length = 394 := by
  unfold encodeSell at h
  dsimp only [] at h
  cases hcm : encodeCallModel "f242432a"
      (transferTemplate WyvernSchemaName.ERC1155 { asset with quantity := 1 }).inputs
      [.str (lowerStr address), .str NULL_ADDRESS, .num asset.tokenId, .num 1,
        .str "0x"] with
  | none => rw [hcm] at h; simp at h
  | some calldata =>
    rw [hcm] at h
    cases hrp : encodeReplacementPattern
        (transferTemplate schema { asset with quantity := 1 }).inputs .replaceable with
    | error e => rw [hrp] at h; simp at h
    | ok mask =>
      rw [hrp] at h
      simp only [Except.ok.injEq] at h
      subst h
      have : ({ asset with quantity := 1 } : AssetRef)
          = ⟨asset.address, asset.tokenId, 1⟩ := rfl
      rw [this] at hcm
      exact encodeCallModel_five_word_bytes_len hcm

theorem encodeBuy_calldata_len_721 {asset : AssetRef} {address : String}
    {enc : TransferEncoding}
    (h : encodeBuy WyvernSchemaName.ERC721 asset address = .ok enc) :
    enc.calldata.data.length = 202 := by
  unfold encodeBuy at h
  dsimp only [] at h
  have hg1 : ¬((List.filter (fun i => decide (i.kind = FunctionInputKind.replaceable))
      (transferTemplate WyvernSchemaName.ERC721 asset).inputs).length ≠ 1) :=
    fun hc => hc rfl
  rw [if_neg hg1] at h
  have hrp : resolvedParamsOfBuy address
      (transferTemplate WyvernSchemaName.ERC721 ⟨asset.address, asset.tokenId,
        asset.quantity⟩).inputs
      = some [.str "0x0000000000000000000000000000000000000000", .str address,
          .num asset.tokenId] := rfl
  rw [show (⟨asset.address, asset.tokenId, asset.quantity⟩ : AssetRef) = asset from rfl]
    at hrp
  rw [hrp] at h
  dsimp only [] at h
  cases hcm : encodeCallModel
      (transferTemplate WyvernSchemaName.ERC721 asset).selectorHex
      (transferTemplate WyvernSchemaName.ERC721 asset).inputs
      [.str "0x0000000000000000000000000000000000000000", .str address,
        .num asset.tokenId] with
  | none => rw [hcm] at h; simp at h
  | some calldata =>
    rw [hcm] at h
    dsimp only [] at h
    have hg2 : 0 < (List.filter (fun i => decide (i.kind = FunctionInputKind.owner))
        (transferTemplate WyvernSchemaName.ERC721 asset).inputs).length :=
      Nat.zero_lt_one
    rw [if_pos hg2] at h
    cases hm : encodeReplacementPattern
        (transferTemplate WyvernSchemaName.ERC721 asset).inputs .owner with
    | error e => rw [hm] at h; simp at h
    | ok mask =>
      rw [hm] at h
      simp only [Except.ok.injEq] at h
      subst h
      have hcm2 : encodeCallModel "23b872dd"
          (transferTemplate WyvernSchemaName.ERC721
            ⟨asset.address, asset.tokenId, asset.quantity⟩).inputs
          [.str "0x0000000000000000000000000000000000000000", .str address,
            .num asset.tokenId] = some calldata := by
        rw [show (⟨asset.address, asset.tokenId, asset.quantity⟩ : AssetRef)
          = asset from rfl]
        exact hcm
      exact encodeCallModel_three_word_len hcm2

theorem encodeBuy_calldata_len_1155 {asset : AssetRef} {address : String}
    {enc : TransferEncoding}
    (h : encodeBuy WyvernSchemaName.ERC1155 asset address = .ok enc) :
    enc.calldata.data.length = 394 := by
  unfold encodeBuy at h
  dsimp only [] at h
  have hg1 : ¬((List.filter (fun i => decide (i.kind = FunctionInputKind.replaceable))
      (transferTemplate WyvernSchemaName.ERC1155 asset).inputs).length ≠ 1) :=
    fun hc => hc rfl
  rw [if_neg hg1] at h
  have hrp : resolvedParamsOfBuy address
      (transferTemplate WyvernSchemaName.ERC1155 ⟨asset.address, asset.tokenId,
        asset.quantity⟩).inputs
      = some [.str "0x0000000000000000000000000000000000000000", .str address,
          .num asset.tokenId, .num asset.quantity, .str "0x"] := rfl
  rw [show (⟨asset.address, asset.tokenId, asset.quantity⟩ : AssetRef) = asset from rfl]
    at hrp
  rw [hrp] at h
  dsimp only [] at h
  cases hcm : encodeCallModel
      (transferTemplate WyvernSchemaName.ERC1155 asset).selectorHex
      (transferTemplate WyvernSchemaName.ERC1155 asset).inputs
      [.str "0x0000000000000000000000000000000000000000", .str address,
        .num asset.tokenId, .num asset.quantity, .str "0x"] with
  | none => rw [hcm] at h; simp at h
  | some calldata =>
    rw [hcm] at h
    dsimp only [] at h
    have hg2 : 0 < (List.filter (fun i => decide (i.kind = FunctionInputKind.owner))
        (transferTemplate WyvernSchemaName.ERC1155 asset).inputs).length :=
      Nat.zero_lt_one
    rw [if_pos hg2] at h
    cases hm : encodeReplacementPattern
        (transferTemplate WyvernSchemaName.ERC1155 asset).inputs .owner with
    | error e => rw [hm] at h; simp at h
    | ok mask =>
      rw [hm] at h
      simp only [Except.ok.injEq] at h
      subst h
      have hcm2 : encodeCallModel "f242432a"
          (transferTemplate WyvernSchemaName.ERC1155
            ⟨asset.address, asset.tokenId, asset.quantity⟩).inputs
          [.str "0x0000000000000000000000000000000000000000", .str address,
            .num asset.tokenId, .num asset.quantity, .str "0x"] = some calldata := by
        rw [show (⟨asset.address, asset.tokenId, asset.quantity⟩ : AssetRef)
          = asset from rfl]
        exact hcm
      exact encodeCallModel_five_word_bytes_len hcm2

/-- A concrete existing ERC-721 sell order (ordX with an ERC-721 schema):
matching it routes the counter-calldata through the 100-byte ERC-721
`transferFrom` encoding while the hard-coded pattern stays 196 bytes. -/
def ordZ : UnhashedOrderB :=
  { ordX with metadata := { ordX.metadata with schema := WyvernSchemaName.ERC721 } }

set_option maxRecDepth 8000 in
/-- C4 counterexample: the counter-order `_makeMatchingOrder` builds for a
concrete ERC-721 sell order succeeds, yet its replacement pattern is the
hard-coded 196-byte buy pattern while its calldata (ERC-721 `transferFrom`,
4 + 3·32 bytes) is 100 bytes long — the two lengths differ. -/
theorem makeMatchingOrder_erc721_length_mismatch :
    makeMatchingOrder 1600000000 7 mmAcct none ordZ mmAcct
        = Except.ok (extractUnsigned (makeMatchingOrder 1600000000 7 mmAcct none ordZ mmAcct))
      ∧ hexByteLen (extractUnsigned
          (makeMatchingOrder 1600000000 7 mmAcct none ordZ mmAcct)).order.replacementPattern
          = 196
      ∧ hexByteLen (extractUnsigned
          (makeMatchingOrder 1600000000 7 mmAcct none ordZ mmAcct)).order.calldata
          = 100 :=
  ⟨by rfl, by rfl, by rfl⟩

set_option maxRecDepth 8000 in
/-- C4 (amended): the replacement-pattern length invariant
`len(replacementPattern) = len(calldata)` holds for every order built by
`_makeSellOrder` (both sides of the comparison are 196 bytes), and for every
order built by `_makeMatchingOrder` whose input order is a buy order or
carries the ERC-1155 schema; for an ERC-721 *sell* order the counter-order's
calldata is the 100-byte `transferFrom` encoding while the hard-coded
pattern stays 196 bytes, so the invariant fails there
(`makeMatchingOrder_erc721_length_mismatch`). -/
theorem replacementPattern_length_invariant :
    (∀ (now salt : Nat) (acct : String) (asset : NftAssetM) (buyer : String)
        (endA : Option ℚ) (resP : ℚ) (e : Nat) (ebp : ℚ) (l : Option Nat)
        (pay : String) (qty : Nat) (start : ℚ) (w : Bool) (o : UnhashedOrderB),
        makeSellOrder now salt acct asset buyer endA resP e ebp l pay qty start w
            = Except.ok o →
        hexByteLen o.replacementPattern = hexByteLen o.calldata)
    ∧ (∀ (now salt : Nat) (acct : String) (offer : Option ℚ)
        (order : UnhashedOrderB) (recip : String) (u : UnsignedOrderB),
        makeMatchingOrder now salt acct offer order recip = Except.ok u →
        order.side = NftOrderSide.Buy ∨ order.metadata.schema = WyvernSchemaName.ERC1155 →
        hexByteLen u.order.replacementPattern = hexByteLen u.order.calldata) := by
  constructor
  · intro now salt acct asset buyer endA resP e ebp l pay qty start w o h
    unfold makeSellOrder at h
    dsimp only [] at h
    cases hf : computeFees (some asset.fees) ebp NftOrderSide.Sell with
    | error er => rw [hf] at h; simp [exceptBind_error] at h
    | ok fees =>
      rw [hf, exceptBind_ok] at h
      cases henc : encodeSell (asset.schema_name.getD WyvernSchemaName.ERC721)
          ⟨asset.contractAddress, asset.token_id, 1⟩ acct with
      | error er => rw [henc] at h; simp [exceptBind_error] at h
      | ok enc =>
        rw [henc, exceptBind_ok] at h
        cases hp : getPriceParameters NftOrderSide.Sell pay e start endA w resP with
        | error er => rw [hp] at h; simp [exceptBind_error] at h
        | ok p =>
          rw [hp, exceptBind_ok, getTimeParameters_sellCall, exceptBind_ok] at h
          injection h with h
          subst h
          show hexByteLen sellHardcodedPattern = hexByteLen enc.calldata
          have hlen := encodeSell_calldata_len henc
          unfold hexByteLen
          rw [hlen]
          rfl
  · intro now salt acct offer order recip u h hrestrict
    unfold makeMatchingOrder at h
    cases hpa : parseAddr acct with
    | none => rw [hpa] at h; simp at h
    | some pa =>
      cases hpr : parseAddr recip with
      | none => rw [hpa, hpr] at h; simp at h
      | some pr =>
        rw [hpa, hpr] at h
        cases henc : computeOrderParams order recip with
        | error er => rw [henc] at h; simp [exceptBind_error] at h
        | ok enc =>
          rw [henc, exceptBind_ok, getTimeParameters_zero_none, exceptBind_ok] at h
          injection h with h
          subst h
          show hexByteLen buyHardcodedPattern = hexByteLen enc.calldata
          have hlen : enc.calldata.data.length = 394 := by
            unfold computeOrderParams at henc
            dsimp only [] at henc
            by_cases hside : order.side = NftOrderSide.Buy
            · rw [if_pos hside] at henc
              exact encodeSell_calldata_len henc
            · rw [if_neg hside] at henc
              cases hrestrict with
              | inl hb => exact absurd hb hside
              | inr hs =>
                rw [hs] at henc
                exact encodeBuy_calldata_len_1155 henc
          unfold hexByteLen
          rw [hlen]
          rfl

set_option maxRecDepth 8000 in
/-- Witness for C4 at a concrete build: the counter-order to the ERC-1155
sell order `ordX` satisfies the length invariant. -/
theorem replacementPattern_length_invariant_witness :
    hexByteLen (extractUnsigned
        (makeMatchingOrder 1600000000 7 mmAcct none ordX mmAcct)).order.replacementPattern
      = hexByteLen (extractUnsigned
          (makeMatchingOrder 1600000000 7 mmAcct none ordX mmAcct)).order.calldata :=
  replacementPattern_length_invariant.2 1600000000 7 mmAcct none ordX mmAcct _
    (by rfl) (Or.inr rfl)

end NftMarket
